import Mathlib

/-!
A shallow embedding of the dp3 history manager core
(src/dp3/history_management/history_manager.py and src/dp3/common/attrspec.py),
with the datapoint store and its range queries modelled from the spec
(the database driver is an external collaborator, outside the repository).

Conventions of the embedding:
* RFC3339 timestamp strings and datetimes are identified with rational
  instants: the source parses strings with parse_rfc_time and stringifies
  with str, and the round trip is the identity on the instants the claims
  quantify over.  Python float arithmetic is modelled with rationals.
* Python runtime faults (TypeError, KeyError, ZeroDivisionError,
  AssertionError, UnboundLocalError, and the ValueError raised on overlap
  conflicts) are values of PyErr; fallible code returns Except PyErr.
* Mutations of the datapoint store are recorded as an explicit list of
  Mut values, applied to a List DP store in the order the source issues
  the database calls.
-/

set_option maxHeartbeats 1000000

namespace Dp3

/-- Decidable equality for Except, so closed runs of the embedded code can be
settled by decide. -/
instance {ε α : Type} [DecidableEq ε] [DecidableEq α] : DecidableEq (Except ε α) := by
  intro a b
  cases a <;> cases b <;>
    first
      | (apply isFalse; intro h; exact Except.noConfusion h)
      | (rename_i x y
         exact if h : x = y then isTrue (by rw [h]) else
           isFalse (by intro hc; cases hc; exact h rfl))

/-- Modelled from the spec: dp3/history_management/constants.py is imported by
history_manager.py but is not under src/.  The spec (§3, Glossary) gives three
mutually exclusive datapoint tags PLAIN, AGGREGATED and REDUNDANT. -/
inductive Tag where
  | plain
  | aggregated
  | redundant
deriving DecidableEq

/-- A Python value stored in a datapoint's v field: the source is dynamically
typed, and the aggregation functions distinguish numbers (add, avg) from
strings (csv_union output, string concatenation). -/
inductive Val where
  | num (q : ℚ)
  | str (s : String)
deriving DecidableEq

/-- A datapoint row of a history table: {id, eid, v, c, src, t1, t2, tag}
(spec §3; the dict rows handled by history_manager.py). -/
structure DP where
  id : Nat
  eid : Nat
  v : Val
  c : ℚ
  src : String
  t1 : ℚ
  t2 : ℚ
  tag : Tag
deriving DecidableEq

/-- A Python runtime fault of the embedded code.  overlapConflict is the
ValueError history_manager.py raises at line 83; splitUnderflow the
AssertionError of split_datapoint's asserts; nameError the UnboundLocalError
when split_datapoint reads tmp1/tmp2 without ever assigning them;
untypedConfidence marks csv_union applied to the numeric confidence field
(Python would store a string into c; the typed embedding cannot). -/
inductive PyErr where
  | typeError
  | keyError
  | zeroDivisionError
  | overlapConflict
  | splitUnderflow
  | nameError
  | untypedConfidence
deriving DecidableEq

/-- The history_params record as AttrSpec stores it after validation
(attrspec.py _validate_history_params): durations parsed to instants'
differences, the three aggregation-function selectors kept as strings
exactly as the source keeps them (merge_check / merge_apply look them up
by string key at merge time). -/
structure HParams where
  pre_validity : ℚ
  post_validity : ℚ
  aggregation_interval : ℚ
  aggregation_max_age : ℚ
  max_age : Option ℚ
  max_items : Option Int
  expire_time : Option ℚ
  aggregation_function_value : String
  aggregation_function_confidence : String
  aggregation_function_source : String
deriving DecidableEq

/-- Python str(v) as used by csv_union's f-string interpolation. -/
def val_str : Val → String
  | .num q => toString q
  | .str s => s

/-- history_manager.py csv_union: ','.join(set(f"a,b".split(','))).  Python's
set iteration order is unspecified; the embedding fixes it as first-occurrence
order (List.eraseDups). -/
def csv_union (a b : String) : String :=
  String.intercalate (",") (((a ++ "," ++ b).splitOn (",")).eraseDups)

/-- The merge_check dict of history_manager.py (lines 334-339): one dict of
dynamically typed lambdas, applied at each field's type; a selector outside
its four keys (e.g. the "min"/"max" attrspec.py admits) is a Python
KeyError. -/
def merge_check {α : Type} [BEq α] (s : String) : Except PyErr (α → α → Bool) :=
  if s = "keep" then .ok (fun a b => a == b)
  else if s = "add" then .ok (fun _ _ => true)
  else if s = "avg" then .ok (fun _ _ => true)
  else if s = "csv_union" then .ok (fun _ _ => true)
  else .error .keyError

/-- history_manager.py mergeable(a, b, params).  Python's `and` short-circuits:
the confidence and source merge_check lookups only happen while the running
result is still truthy. -/
def mergeable (a b : DP) (params : HParams) : Except PyErr Bool := do
  let f1 ← merge_check (α := Val) params.aggregation_function_value
  if f1 a.v b.v then
    let f2 ← merge_check (α := ℚ) params.aggregation_function_confidence
    if f2 a.c b.c then
      let f3 ← merge_check (α := String) params.aggregation_function_source
      pure (f3 a.src b.src)
    else
      pure false
  else
    pure false

/-- Python a + b on datapoint values: numbers add, strings concatenate,
mixed operands raise TypeError. -/
def py_add : Val → Val → Except PyErr Val
  | .num a, .num b => .ok (.num (a + b))
  | .str a, .str b => .ok (.str (a ++ b))
  | _, _ => .error .typeError

/-- Python (a + b) / 2 on datapoint values: defined on numbers; on strings
a + b concatenates and the division then raises TypeError. -/
def py_avg : Val → Val → Except PyErr Val
  | .num a, .num b => .ok (.num ((a + b) / 2))
  | _, _ => .error .typeError

/-- The merge_apply dict of history_manager.py at the type of the value
field; selectors outside the dict raise KeyError. -/
def merge_apply_val (s : String) : Except PyErr (Val → Val → Except PyErr Val) :=
  if s = "keep" then .ok (fun a _ => .ok a)
  else if s = "add" then .ok py_add
  else if s = "avg" then .ok py_avg
  else if s = "csv_union" then .ok (fun a b => .ok (.str (csv_union (val_str a) (val_str b))))
  else .error .keyError

/-- merge_apply at the confidence field (a rational in the embedding).
csv_union on two floats succeeds in Python but produces a string; the typed
embedding reports that as untypedConfidence (no claim exercises it). -/
def merge_apply_conf (s : String) : Except PyErr (ℚ → ℚ → Except PyErr ℚ) :=
  if s = "keep" then .ok (fun a _ => .ok a)
  else if s = "add" then .ok (fun a b => .ok (a + b))
  else if s = "avg" then .ok (fun a b => .ok ((a + b) / 2))
  else if s = "csv_union" then .ok (fun _ _ => .error .untypedConfidence)
  else .error .keyError

/-- merge_apply at the source field: keep, string concatenation for add,
TypeError for avg (string division), csv_union proper. -/
def merge_apply_src (s : String) : Except PyErr (String → String → Except PyErr String) :=
  if s = "keep" then .ok (fun a _ => .ok a)
  else if s = "add" then .ok (fun a b => .ok (a ++ b))
  else if s = "avg" then .ok (fun _ _ => .error .typeError)
  else if s = "csv_union" then .ok (fun a b => .ok (csv_union a b))
  else .error .keyError

/-- history_manager.py merge(a, b, history_params): mutates a in place; the
embedding returns the mutated copy.  t1 becomes min(a.t1, b.t1) and t2
max(a.t2, b.t2) (stringified RFC3339 in the source, instants here). -/
def merge (a b : DP) (history_params : HParams) : Except PyErr DP := do
  let fv ← merge_apply_val history_params.aggregation_function_value
  let v' ← fv a.v b.v
  let fc ← merge_apply_conf history_params.aggregation_function_confidence
  let c' ← fc a.c b.c
  let fs ← merge_apply_src history_params.aggregation_function_source
  let s' ← fs a.src b.src
  pure { a with v := v', c := c', src := s', t1 := min a.t1 b.t1, t2 := max a.t2 b.t2 }

/-- history_manager.py extrapolate_confidence(datapoint, timestamp,
history_params).  The division of timedeltas raises ZeroDivisionError when
the relevant validity is the zero duration; there is no guard in the
source. -/
def extrapolate_confidence (datapoint : DP) (timestamp : ℚ) (history_params : HParams) :
    Except PyErr ℚ :=
  let pre_validity := history_params.pre_validity
  let post_validity := history_params.post_validity
  let t1 := datapoint.t1
  let t2 := datapoint.t2
  let base_confidence := datapoint.c
  if t2 < timestamp then
    if post_validity = 0 then .error .zeroDivisionError
    else .ok (base_confidence * (1 - (timestamp - t2) / post_validity))
  else if t1 > timestamp then
    if pre_validity = 0 then .error .zeroDivisionError
    else .ok (base_confidence * (1 - (t1 - timestamp) / pre_validity))
  else .ok base_confidence

/-! The datapoint store.  The database driver is an external collaborator
(spec §6); its range query and mutation operations are modelled from the
spec's contracts. -/

/-- The history table of one (etype, attr) pair: a list of rows in insertion
order. -/
abbrev Db := List DP

/-- Modelled from the spec (§6): filter_redundant true excludes REDUNDANT
rows, false selects only REDUNDANT rows, none keeps all tags. -/
def tag_ok (filter_redundant : Option Bool) (t : Tag) : Bool :=
  match filter_redundant with
  | none => true
  | some true => !(t == Tag.redundant)
  | some false => t == Tag.redundant

/-- Modelled from the spec (§6): interval overlap of a row with the queried
range, closed or open ended. -/
def range_overlaps (closed_interval : Bool) (t1 t2 : ℚ) (d : DP) : Bool :=
  if closed_interval then decide (d.t1 ≤ t2 ∧ t1 ≤ d.t2)
  else decide (d.t1 < t2 ∧ t1 < d.t2)

/-- Stable insertion into a list sorted by le (the sort algorithm of the
external driver is not part of the repository; any stable sort realizes the
spec's contract). -/
def insert_by (le : DP → DP → Bool) (x : DP) : List DP → List DP
  | [] => [x]
  | y :: ys => if le x y then x :: y :: ys else y :: insert_by le x ys

/-- Stable insertion sort by le. -/
def sort_by (le : DP → DP → Bool) : List DP → List DP
  | [] => []
  | x :: xs => insert_by le x (sort_by le xs)

/-- Modelled from the spec (§6): get_datapoints_range(etype, attr_name, eid,
t1, t2, closed_interval, sort, filter_redundant): rows of the entity whose
interval overlaps the range, sort 0 ascending by t1, sort 1 descending by
t2, no sort argument the stored order. -/
def get_datapoints_range (db : Db) (eid : Nat) (t1 t2 : ℚ)
    (closed_interval : Bool) (sort : Option Nat) (filter_redundant : Option Bool) : List DP :=
  let rows := db.filter (fun d =>
    d.eid == eid && range_overlaps closed_interval t1 t2 d && tag_ok filter_redundant d.tag)
  match sort with
  | some 0 => sort_by (fun a b => decide (a.t1 ≤ b.t1)) rows
  | some 1 => sort_by (fun a b => decide (b.t2 ≤ a.t2)) rows
  | _ => rows

/-- A database mutation issued by the history manager, in the order of the
source's calls: create_datapoint, rewrite_data_points (bulk update by id),
delete_multiple_records, delete_record. -/
inductive Mut where
  | create (dp : DP)
  | rewrite (ids : List Nat) (dps : List DP)
  | deleteMany (ids : List Nat)
  | deleteOne (id : Nat)
deriving DecidableEq

/-- A fresh row id for create_datapoint (the driver assigns ids). -/
def fresh_id (db : Db) : Nat := (db.map DP.id).foldl Nat.max 0 + 1

/-- Modelled from the spec (§6): the effect of one mutation on the store. -/
def apply_mut (db : Db) : Mut → Db
  | .create dp => db ++ [{ dp with id := fresh_id db }]
  | .rewrite ids dps => db.map (fun r =>
      match (ids.zip dps).find? (fun p => p.1 == r.id) with
      | some p => p.2
      | none => r)
  | .deleteMany ids => db.filter (fun r => !(ids.contains r.id))
  | .deleteOne i => db.filter (fun r => !(r.id == i))

/-- The outcome of a history-manager operation: the mutations it issued (in
order), the store after them, and the fault it raised, if any.  Mutations
issued before a fault have already happened (the source's database calls are
immediate). -/
structure DbRes where
  muts : List Mut
  db : Db
  err : Option PyErr
deriving DecidableEq

/-! split_datapoint (history_manager.py lines 141-175). -/

/-- The tail of split_datapoint's loop once the flag has flipped: every
remaining constituent is merged into the running aggregate (the flag is never
True again). -/
def split_loop_after (hp : HParams) : DP → List DP → Except PyErr DP
  | agg, [] => .ok agg
  | agg, r :: rest => do
      let agg' ← merge agg r hp
      split_loop_after hp agg' rest

/-- split_datapoint's loop over redundant
constituents beyond the first: while the flag is True, a constituent starting
at or before the pivot is merged into the running aggregate; the first
constituent starting strictly after the pivot flips the flag, the source
saves (tmp1, tmp2) = (the aggregate so far, that constituent) and restarts
the aggregate from a copy of it.  Returns the final aggregate and the saved
pair, none when the flag never flipped. -/
def split_loop (hp : HParams) (timestamp : ℚ) :
    DP → List DP → Except PyErr (DP × Option (DP × DP))
  | agg, [] => .ok (agg, none)
  | agg, r :: rest =>
    if timestamp < r.t1 then
      (split_loop_after hp r rest).map (fun final => (final, some (agg, r)))
    else
      match merge agg r hp with
      | .error e => .error e
      | .ok agg' => split_loop hp timestamp agg' rest

/-- history_manager.py split_datapoint(etype, attr_id, data, timestamp): data
is the datapoint being split, its REDUNDANT constituents are queried over the
closed interval [data.t1, data.t2] ascending by t1 and repartitioned at the
pivot.  The len and first-starts-before-pivot asserts are splitUnderflow.
When no constituent starts strictly after the pivot the flag never flips:
the source still deletes data's row and then raises UnboundLocalError
(nameError) reading tmp1.  The source pops the copied row's id; created rows
receive fresh ids from the store, so the stale field is simply carried. -/
def split_datapoint (db : Db) (hp : HParams) (data : DP) (timestamp : ℚ) : DbRes :=
  let redundant := get_datapoints_range db data.eid data.t1 data.t2 true (some 0) (some false)
  match redundant with
  | [] => { muts := [], db := db, err := some .splitUnderflow }
  | r0 :: rest =>
    if !(decide (r0.t1 < timestamp)) then { muts := [], db := db, err := some .splitUnderflow }
    else
      let agg0 : DP := { r0 with t1 := data.t1 }
      match split_loop hp timestamp agg0 rest with
      | .error e => { muts := [], db := db, err := some e }
      | .ok (_, none) =>
          let m1 : Mut := .deleteOne data.id
          { muts := [m1], db := apply_mut db m1, err := some .nameError }
      | .ok (aggF, some (tmp1, tmp2)) =>
          let muts : List Mut :=
            [Mut.deleteOne data.id]
            ++ (if tmp1.t2 = r0.t2 then
                  [Mut.deleteOne r0.id, Mut.create { tmp1 with tag := .plain }]
                else
                  [Mut.create { tmp1 with tag := .aggregated }])
            ++ (if aggF.t1 = tmp2.t1 then
                  [Mut.deleteOne tmp2.id, Mut.create { aggF with tag := .plain }]
                else
                  [Mut.create { aggF with tag := .aggregated }])
          { muts := muts, db := muts.foldl apply_mut db, err := none }

/-! process_datapoint (history_manager.py lines 59-139). -/

/-- The collision loop of process_datapoint (lines 78-83): builds merge_list
and raises the overlap ValueError at the first overlapping datapoint that is
not mergeable while not AGGREGATED and the attribute is not multi_value. -/
def collision_scan (data : DP) (hp : HParams) (multi_value : Bool) :
    List DP → Except PyErr (List Bool)
  | [] => .ok []
  | d :: ds => do
      let m ← mergeable data d hp
      if !m && !(d.tag == Tag.aggregated) && !multi_value then
        .error .overlapConflict
      else do
        let rest ← collision_scan data hp multi_value ds
        pure (m :: rest)

/-- The in-memory state process_datapoint threads through its merge loops:
the running aggregate, the batched retag/rewrite and delete lists, and the
store with the mutations already issued (splits write immediately). -/
structure IngestSt where
  agg : DP
  redundant_ids : List Nat
  redundant_data : List DP
  delete_ids : List Nat
  muts : List Mut
  db : Db
deriving DecidableEq

/-- The merge-with-overlapping loop of process_datapoint (lines 86-102),
walking the overlap query zipped with merge_list: REDUNDANT rows are skipped,
mergeable rows are merged (AGGREGATED ones scheduled for delete, others
retagged REDUNDANT for the batched rewrite), non-mergeable rows are skipped
when multi-value and otherwise split at the incoming t1. -/
def overlap_loop (hp : HParams) (mv : Bool) (t1 : ℚ) :
    IngestSt → List (DP × Bool) → IngestSt × Option PyErr
  | st, [] => (st, none)
  | st, (d, is_mergeable) :: rest =>
    if d.tag == Tag.redundant then overlap_loop hp mv t1 st rest
    else if is_mergeable then
      match merge st.agg d hp with
      | .error e => (st, some e)
      | .ok agg' =>
        if d.tag == Tag.aggregated then
          overlap_loop hp mv t1 { st with agg := agg', delete_ids := st.delete_ids ++ [d.id] } rest
        else
          overlap_loop hp mv t1
            { st with agg := agg', redundant_ids := st.redundant_ids ++ [d.id],
                      redundant_data := st.redundant_data ++ [{ d with tag := .redundant }] } rest
    else if mv then overlap_loop hp mv t1 st rest
    else
      let res := split_datapoint st.db hp d t1
      match res.err with
      | some e => ({ st with muts := st.muts ++ res.muts, db := res.db }, some e)
      | none => overlap_loop hp mv t1 { st with muts := st.muts ++ res.muts, db := res.db } rest

/-- One side of the merge-with-adjacent loop of process_datapoint (lines
104-128): pre and post are the flanking neighbourhood query results and side
the one being walked.  A neighbour still touching the incoming interval is
skipped; a mergeable neighbour is merged as in the overlap loop; a
non-mergeable one stops the walk unless the attribute is multi-value. -/
def adjacent_loop (hp : HParams) (mv : Bool) (pre post : List DP) (t1 t2 : ℚ) :
    IngestSt → List DP → IngestSt × Option PyErr
  | st, [] => (st, none)
  | st, d :: rest =>
    if (pre.contains d && decide (t1 ≤ d.t2)) || (post.contains d && decide (d.t1 ≤ t2)) then
      adjacent_loop hp mv pre post t1 t2 st rest
    else
      match mergeable st.agg d hp with
      | .error e => (st, some e)
      | .ok m =>
        if m then
          match merge st.agg d hp with
          | .error e => (st, some e)
          | .ok agg' =>
            if d.tag == Tag.aggregated then
              adjacent_loop hp mv pre post t1 t2
                { st with agg := agg', delete_ids := st.delete_ids ++ [d.id] } rest
            else
              adjacent_loop hp mv pre post t1 t2
                { st with agg := agg', redundant_ids := st.redundant_ids ++ [d.id],
                          redundant_data := st.redundant_data ++ [{ d with tag := .redundant }] } rest
        else if mv then adjacent_loop hp mv pre post t1 t2 st rest
        else (st, none)

/-- The commit block of process_datapoint (lines 130-139): exactly when the
aggregate's interval differs from the incoming datapoint's, the aggregate is
persisted tagged AGGREGATED and the incoming datapoint retagged REDUNDANT;
the incoming datapoint is then persisted; nonempty retag and delete batches
are flushed. -/
def commit_step (agg data : DP) (redundant_ids : List Nat) (redundant_data : List DP)
    (delete_ids : List Nat) : List Mut :=
  (if agg.t1 ≠ data.t1 ∨ agg.t2 ≠ data.t2 then
      [Mut.create { agg with tag := .aggregated }, Mut.create { data with tag := .redundant }]
    else
      [Mut.create data])
  ++ (if redundant_ids.length > 0 then [Mut.rewrite redundant_ids redundant_data] else [])
  ++ (if delete_ids.length > 0 then [Mut.deleteMany delete_ids] else [])

/-- history_manager.py process_datapoint(etype, attr_id, data).  The
attribute spec is reduced to the fields the function reads: whether its type
is timeseries, multi_value, and history_params.  The incoming tag is forced
to PLAIN (line 68); timeseries data is persisted verbatim and the function
returns (fast path). -/
def process_datapoint (db : Db) (hp : HParams) (is_timeseries multi_value : Bool)
    (data0 : DP) : DbRes :=
  let data : DP := { data0 with tag := .plain }
  if is_timeseries then
    let m : Mut := .create data
    { muts := [m], db := apply_mut db m, err := none }
  else
    let datapoints := get_datapoints_range db data.eid data.t1 data.t2 false none none
    match collision_scan data hp multi_value datapoints with
    | .error e => { muts := [], db := db, err := some e }
    | .ok merge_list =>
      let st0 : IngestSt := { agg := data, redundant_ids := [], redundant_data := [],
                              delete_ids := [], muts := [], db := db }
      match overlap_loop hp multi_value data.t1 st0 (datapoints.zip merge_list) with
      | (st, some e) => { muts := st.muts, db := st.db, err := some e }
      | (st1, none) =>
        let pre := get_datapoints_range st1.db data.eid (data.t1 - hp.aggregation_interval)
          data.t1 false (some 1) (some true)
        let post := get_datapoints_range st1.db data.eid data.t2
          (data.t2 + hp.aggregation_interval) false (some 0) (some true)
        match adjacent_loop hp multi_value pre post data.t1 data.t2 st1 pre with
        | (st, some e) => { muts := st.muts, db := st.db, err := some e }
        | (st2, none) =>
          match adjacent_loop hp multi_value pre post data.t1 data.t2 st2 post with
          | (st, some e) => { muts := st.muts, db := st.db, err := some e }
          | (st3, none) =>
            let cm := commit_step st3.agg data st3.redundant_ids st3.redundant_data st3.delete_ids
            { muts := st3.muts ++ cm, db := cm.foldl apply_mut st3.db, err := none }

/-! The confidence part of manage_current_entity_values (history_manager.py
lines 213-247), for one entity and one confidence attribute. -/

/-- Truthiness of a single-value confidence slot: Python None and 0.0 are
falsy, so the entity is skipped for them (rec[attr_c] is the loop's guard). -/
def truthy_single (c : Option ℚ) : Bool :=
  match c with
  | none => false
  | some q => !(q == 0)

/-- The single-value confidence update for one entity (lines 237-246): rec_v
and rec_c are the entity record's current value and confidence slots, dps the
window query's datapoints.  Returns the confidence slot after the update:
unchanged when the guard skips the entity or no datapoint matches the
current value. -/
def manage_confidence_single (rec_v : Val) (rec_c : Option ℚ) (dps : List DP)
    (t_now : ℚ) (hp : HParams) : Except PyErr (Option ℚ) :=
  if !(truthy_single rec_c) then .ok rec_c
  else do
    let best ← dps.foldlM (fun (best : Option ℚ) d =>
      if !(d.v == rec_v) then pure best
      else do
        let confidence ← extrapolate_confidence d t_now hp
        match best with
        | none => pure (some confidence)
        | some b => if b < confidence then pure (some confidence) else pure (some b))
      none
    match best with
    | none => .ok rec_c
    | some b => .ok (some b)

/-- Truthiness of a multi-value confidence slot: a missing or empty list is
falsy and the entity is skipped. -/
def truthy_multi (c : Option (List ℚ)) : Bool :=
  match c with
  | none => false
  | some l => !(l.isEmpty)

/-- The multi-value confidence update for one entity (lines 226-235): best
starts at 0.0 per current value; each datapoint whose v occurs among the
current values raises the confidence at the first index holding that value
(Python list.index). -/
def manage_confidence_multi (rec_v : List Val) (rec_c : Option (List ℚ)) (dps : List DP)
    (t_now : ℚ) (hp : HParams) : Except PyErr (Option (List ℚ)) :=
  if !(truthy_multi rec_c) then .ok rec_c
  else do
    let best ← dps.foldlM (fun (best : List ℚ) d =>
      if !(rec_v.contains d.v) then pure best
      else do
        let i := rec_v.findIdx (fun x => x == d.v)
        let confidence ← extrapolate_confidence d t_now hp
        if best.getD i 0 < confidence then pure (best.set i confidence) else pure best)
      (rec_v.map (fun _ => (0 : ℚ)))
    pure (some best)

/-! AttrSpec (src/dp3/common/attrspec.py): history-params validation and the
value-validator construction. -/

/-- Modelled from the spec: dp3.common.utils.parse_time_duration is imported
by attrspec.py but not under src/.  Spec §4.1: the grammar is an integer
followed by a unit among s, m, h, d, w, plus the literal zero; anything else
is a MalformedDuration (a ValueError, which _parse_time_duration_safe turns
into the InvalidSpec AssertionError).  The literal for infinity is consumed
by attrspec.py's expire_time branch before this parser is reached.  The
result is the duration in seconds. -/
def parse_time_duration (s : String) : Except String ℚ :=
  if s = "0" then .ok 0
  else
    let unit := s.takeRight 1
    let numPart := s.dropRight 1
    let factor : Option ℚ :=
      if unit = "s" then some 1
      else if unit = "m" then some 60
      else if unit = "h" then some 3600
      else if unit = "d" then some 86400
      else if unit = "w" then some 604800
      else none
    match factor with
    | none => .error ("malformed duration")
    | some f =>
      if numPart.length > 0 && numPart.all Char.isDigit then
        match numPart.toNat? with
        | some n => .ok (f * n)
        | none => .error ("malformed duration")
      else .error ("malformed duration")

/-- attrspec.py aggregation_functions (lines 67-74).  Note the list admits
the selectors "min" and "max" although history_manager.py's merge_check and
merge_apply dicts have no such keys. -/
def aggregation_functions : List String :=
  ["keep", "add", "avg", "min", "max", "csv_union"]

/-- The history_params sub-document of an attribute specification as handed
to AttrSpec: a field that is none is absent and takes its default from
default_history_params (attrspec.py lines 81-91, merged at line 357).
max_items is typed as an integer here; its Python type check is not the
subject of any claim. -/
structure HistoryParamsInput where
  max_age : Option String
  max_items : Option Int
  expire_time : Option String
  pre_validity : Option String
  post_validity : Option String
  aggregation_max_age : Option String
  aggregation_interval : Option String
  aggregation_function_value : Option String
  aggregation_function_confidence : Option String
  aggregation_function_source : Option String
deriving DecidableEq

/-- attrspec.py AttrSpec._validate_history_params (lines 352-383), after the
merge with default_history_params: checks max_items, parses the
duration-valued fields, derives aggregation_interval as pre_validity +
post_validity when absent, and finally asserts the three
aggregation-function selectors against aggregation_functions.  Errors are
the AssertionError messages (InvalidSpec). -/
def validate_history_params (input : HistoryParamsInput) : Except String HParams := do
  match input.max_items with
  | some n => if n > 0 then pure () else throw ("value of max_items is invalid")
  | none => pure ()
  let max_age' : Option ℚ ←
    match input.max_age with
    | none => pure none
    | some s => ((parse_time_duration s).mapError
        (fun _ => "format of max_age is invalid")).map some
  let expire' : Option ℚ ←
    if input.expire_time.getD "inf" = "inf" then pure none
    else ((parse_time_duration (input.expire_time.getD "inf")).mapError
        (fun _ => "format of expire_time is invalid")).map some
  let pre ← (parse_time_duration (input.pre_validity.getD "0s")).mapError
    (fun _ => "format of pre_validity is invalid")
  let post ← (parse_time_duration (input.post_validity.getD "0s")).mapError
    (fun _ => "format of post_validity is invalid")
  let agg_interval ←
    match input.aggregation_interval with
    | none => pure (pre + post)
    | some s =>
        ((parse_time_duration s).mapError (fun _ => "format of aggregation_interval is invalid"))
  let agg_max_age ← (parse_time_duration (input.aggregation_max_age.getD "0s")).mapError
    (fun _ => "format of aggregation_max_age is invalid")
  let afv := input.aggregation_function_value.getD "keep"
  let afc := input.aggregation_function_confidence.getD "avg"
  let afs := input.aggregation_function_source.getD "csv_union"
  if !(aggregation_functions.contains afv) then
    throw ("format of aggregation_function_value is invalid")
  else if !(aggregation_functions.contains afc) then
    throw ("format of aggregation_function_confidence is invalid")
  else if !(aggregation_functions.contains afs) then
    throw ("format of aggregation_function_source is invalid")
  else
    pure { pre_validity := pre, post_validity := post,
           aggregation_interval := agg_interval, aggregation_max_age := agg_max_age,
           max_age := max_age', max_items := input.max_items, expire_time := expire',
           aggregation_function_value := afv, aggregation_function_confidence := afc,
           aggregation_function_source := afs }

/-- A Python runtime value handed to a value validator: the source is
dynamically typed, so the validators dispatch on this. -/
inductive PyVal where
  | bool (b : Bool)
  | int (n : Int)
  | float (q : ℚ)
  | str (s : String)
  | list (l : List PyVal)
  | dict (l : List (String × PyVal))
  | pynone

mutual

/-- Python == on runtime values, structurally.  (Python's cross-type numeric
equalities, such as an int equalling a float, are not needed by any
claim.) -/
def py_eq : PyVal → PyVal → Bool
  | .bool a, .bool b => a == b
  | .int a, .int b => a == b
  | .float a, .float b => a == b
  | .str a, .str b => a == b
  | .list a, .list b => py_eq_list a b
  | .dict a, .dict b => py_eq_dict a b
  | .pynone, .pynone => true
  | _, _ => false

/-- Python == on lists of runtime values. -/
def py_eq_list : List PyVal → List PyVal → Bool
  | [], [] => true
  | a :: as, b :: bs => py_eq a b && py_eq_list as bs
  | _, _ => false

/-- Python == on string-keyed dicts (as association lists). -/
def py_eq_dict : List (String × PyVal) → List (String × PyVal) → Bool
  | [], [] => true
  | (ka, va) :: as, (kb, vb) :: bs => ka == kb && py_eq va vb && py_eq_dict as bs
  | _, _ => false

end

/-- What a Python validator call returns: a bool, an re.Match object
(truthy), or None (falsy).  The mac and time validators return match objects
or None, never a bool. -/
inductive PyRes where
  | bool (b : Bool)
  | matchObj
  | noneRes
deriving DecidableEq

/-- Python truthiness of a validator result. -/
def py_truthy : PyRes → Bool
  | .bool b => b
  | .matchObj => true
  | .noneRes => false

/-- A hexadecimal digit, as in the character classes of attrspec.py's
regexes. -/
def is_hex_digit (c : Char) : Bool :=
  c.isDigit || ('a' ≤ c && c ≤ 'f') || ('A' ≤ c && c ≤ 'F')

/-- The repetition structure of attrspec.py re_mac: n groups of two hex
digits, the first n-1 each followed by a colon or dash separator. -/
def mac_groups : Nat → List Char → Bool
  | 1, [a, b] => is_hex_digit a && is_hex_digit b
  | n + 2, a :: b :: sep :: rest =>
      is_hex_digit a && is_hex_digit b && (sep == ':' || sep == '-') &&
        mac_groups (n + 1) rest
  | _, _ => false

/-- attrspec.py re_mac (line 100): six hex-digit pairs separated by colons
or dashes. -/
def re_mac_match (s : String) : Bool := mac_groups 6 s.toList

/-- Exactly n decimal digits prefix the rest. -/
def digits_n : Nat → List Char → Option (List Char)
  | 0, rest => some rest
  | n + 1, c :: rest => if c.isDigit then digits_n n rest else none
  | _ + 1, [] => none

/-- The timezone tail of attrspec.py re_timestamp: empty, Z or z, or a sign
followed by two digits, a colon and two digits. -/
def ts_tail_tz : List Char → Bool
  | [] => true
  | [z] => z == 'Z' || z == 'z'
  | c :: rest =>
      (c == '+' || c == '-') &&
        (match digits_n 2 rest with
         | some (':' :: r2) => digits_n 2 r2 == some []
         | _ => false)

/-- The optional fractional-seconds part of re_timestamp, then the timezone
tail. -/
def ts_tail_frac : List Char → Bool
  | '.' :: rest =>
      !(rest.takeWhile Char.isDigit).isEmpty && ts_tail_tz (rest.dropWhile Char.isDigit)
  | l => ts_tail_tz l

/-- attrspec.py re_timestamp (line 99): date, separator T, t or space, time,
optional fraction, optional timezone. -/
def re_timestamp_match (s : String) : Bool :=
  match digits_n 4 s.toList with
  | some ('-' :: r1) =>
    (match digits_n 2 r1 with
     | some ('-' :: r2) =>
       (match digits_n 2 r2 with
        | some (sep :: r3) =>
          (sep == 'T' || sep == 't' || sep == ' ') &&
            (match digits_n 2 r3 with
             | some (':' :: r4) =>
               (match digits_n 2 r4 with
                | some (':' :: r5) =>
                  (match digits_n 2 r5 with
                   | some r6 => ts_tail_frac r6
                   | none => false)
                | _ => false)
             | _ => false)
        | _ => false)
     | _ => false)
  | _ => false

/-- One octet of a dotted quad as ipaddress accepts it: decimal, no leading
zero, at most 255. -/
def ipv4_octet (p : String) : Bool :=
  p.length > 0 && p.all Char.isDigit && (p.length == 1 || !(p.startsWith "0")) &&
    p.toNat?.getD 256 ≤ 255

/-- A dotted-quad IPv4 address string. -/
def ipv4_str_ok (s : String) : Bool :=
  let parts := s.splitOn "."
  parts.length == 4 && parts.all ipv4_octet

/-- attrspec.py valid_ipv4: ipaddress.IPv4Address accepts ints (and bools,
which are ints) in the 32-bit range and strings parsing as dotted quads;
every other runtime value is stringified by the constructor and the result
never parses, so the try/except returns False.  Total and boolean. -/
def valid_ipv4 (v : PyVal) : Bool :=
  match v with
  | .bool _ => true
  | .int n => 0 ≤ n && n < 4294967296
  | .str s => ipv4_str_ok s
  | _ => false

/-- A hextet of an IPv6 address: one to four hex digits. -/
def ipv6_hextet (p : String) : Bool :=
  p.length ≥ 1 && p.length ≤ 4 && p.all is_hex_digit

/-- An IPv6 address string, modelled at the granularity the claims need
(total and boolean): eight hextets, or fewer with one empty run standing for
the double-colon compression; the embedded-IPv4 tail form is not
modelled. -/
def valid_ipv6_str (s : String) : Bool :=
  if s = "::" then true
  else
    let parts := s.splitOn ":"
    if (parts.count "") == 0 then
      parts.length == 8 && parts.all ipv6_hextet
    else
      parts.length ≤ 8 && (parts.filter (fun p => !(p == ""))).all ipv6_hextet &&
        s.length ≥ 2

/-- attrspec.py valid_ipv6, with the same total try/except shape as
valid_ipv4. -/
def valid_ipv6 (v : PyVal) : Bool :=
  match v with
  | .bool _ => true
  | .int n => 0 ≤ n && n < 340282366920938463463374607431768211456
  | .str s => valid_ipv6_str s
  | _ => false

/-- The validators dict of attrspec.py (lines 136-149), applied to a runtime
value.  The mac and time entries call re.match, which raises TypeError on a
non-string argument and returns a match object or None on a string; every
other entry is total and returns a bool.  A data type outside the dict is a
KeyError (unreachable through AttrSpec construction). -/
def validators (data_type : String) (v : PyVal) : Except PyErr PyRes :=
  if data_type = "tag" then .ok (.bool (match v with | .bool _ => true | _ => false))
  else if data_type = "binary" then .ok (.bool (match v with | .bool _ => true | _ => false))
  else if data_type = "string" then .ok (.bool (match v with | .str _ => true | _ => false))
  else if data_type = "int" then .ok (.bool (match v with | .int _ => true | _ => false))
  else if data_type = "int64" then .ok (.bool (match v with | .int _ => true | _ => false))
  else if data_type = "float" then .ok (.bool (match v with | .float _ => true | _ => false))
  else if data_type = "ipv4" then .ok (.bool (valid_ipv4 v))
  else if data_type = "ipv6" then .ok (.bool (valid_ipv6 v))
  else if data_type = "mac" then
    match v with
    | .str s => .ok (if re_mac_match s then .matchObj else .noneRes)
    | _ => .error .typeError
  else if data_type = "time" then
    match v with
    | .str s => .ok (if re_timestamp_match s then .matchObj else .noneRes)
    | _ => .error .typeError
  else if data_type = "special" then
    .ok (.bool (match v with | .pynone => false | _ => true))
  else if data_type = "json" then
    .ok (.bool (match v with | .pynone => false | _ => true))
  else .error .keyError

/-- attrspec.py primitive_data_types (lines 44-57). -/
def primitive_data_types : List String :=
  ["tag", "binary", "string", "int", "int64", "float", "ipv4", "ipv6", "mac",
   "time", "special", "json"]

/-- The element walk of attrspec.py valid_array: the element validator is
applied pointwise, its faults propagate, and a falsy result ends the walk
with False. -/
def valid_array_items (data_type : String) : List PyVal → Except PyErr Bool
  | [] => .ok true
  | item :: rest => do
      let r ← validators data_type item
      if !(py_truthy r) then pure false
      else valid_array_items data_type rest

/-- attrspec.py valid_array(obj, data_type) (lines 153-160). -/
def valid_array (v : PyVal) (data_type : String) : Except PyErr PyRes :=
  match v with
  | .list l => (valid_array_items data_type l).map PyRes.bool
  | _ => .ok (.bool false)

/-- Python list.count with == equality. -/
def count_py (l : List PyVal) (x : PyVal) : Nat := (l.filter (fun y => py_eq y x)).length

/-- The element walk of attrspec.py valid_set: as valid_array, and an
element occurring more than once in the whole list also yields False (the
validator is called before the count, as Python's or evaluates left to
right). -/
def valid_set_items (data_type : String) (obj : List PyVal) : List PyVal → Except PyErr Bool
  | [] => .ok true
  | item :: rest => do
      let r ← validators data_type item
      if !(py_truthy r) || count_py obj item > 1 then pure false
      else valid_set_items data_type obj rest

/-- attrspec.py valid_set(obj, data_type) (lines 164-171). -/
def valid_set (v : PyVal) (data_type : String) : Except PyErr PyRes :=
  match v with
  | .list l => (valid_set_items data_type l l).map PyRes.bool
  | _ => .ok (.bool false)

/-- Python dict membership and subscript for a string key. -/
def dict_lookup (obj : List (String × PyVal)) (k : String) : Option PyVal :=
  (obj.find? (fun p => p.1 == k)).map Prod.snd

/-- The key walk of attrspec.py valid_dict: a declared key absent from the
object is allowed only when its name ends with the optional marker; a
present key's value runs the validator for its declared type, faults
propagating. -/
def valid_dict_keys (obj : List (String × PyVal)) : List (String × String) → Except PyErr Bool
  | [] => .ok true
  | (key, ty) :: rest =>
      match dict_lookup obj key with
      | none => if key.endsWith "?" then valid_dict_keys obj rest else pure false
      | some x => do
          let r ← validators ty x
          if !(py_truthy r) then pure false
          else valid_dict_keys obj rest

/-- attrspec.py valid_dict(obj, key_spec) (lines 175-187). -/
def valid_dict (v : PyVal) (key_spec : List (String × String)) : Except PyErr PyRes :=
  match v with
  | .dict obj => (valid_dict_keys obj key_spec).map PyRes.bool
  | _ => .ok (.bool false)

/-- Python membership of a value in a list. -/
def py_in (x : PyVal) (l : List PyVal) : Bool := l.any (fun y => py_eq y x)

/-- A word character of the \w class in attrspec.py's type-form regexes. -/
def is_word_char (c : Char) : Bool := c.isAlphanum || c == '_'

/-- attrspec.py re_array (line 101): the element type inside the
angle-bracketed array form, when the string matches. -/
def re_array_match (s : String) : Option String :=
  if s.startsWith "array<" && s.endsWith ">" then
    let inner := (s.drop 6).dropRight 1
    if inner.length > 0 && inner.all is_word_char then some inner else none
  else none

/-- attrspec.py re_set (line 102). -/
def re_set_match (s : String) : Option String :=
  if s.startsWith "set<" && s.endsWith ">" then
    let inner := (s.drop 4).dropRight 1
    if inner.length > 0 && inner.all is_word_char then some inner else none
  else none

/-- attrspec.py re_link (line 103). -/
def re_link_match (s : String) : Option String :=
  if s.startsWith "link<" && s.endsWith ">" then
    let inner := (s.drop 5).dropRight 1
    if inner.length > 0 && inner.all is_word_char then some inner else none
  else none

/-- One key:type item of the dict form: an optional-marked word key, a colon
and a word type. -/
def dict_item_ok (item : String) : Bool :=
  match item.splitOn ":" with
  | [k, ty] =>
      let kcore := if k.endsWith "?" then k.dropRight 1 else k
      kcore.length > 0 && kcore.all is_word_char && ty.length > 0 && ty.all is_word_char
  | _ => false

/-- attrspec.py re_dict (line 104) together with the key_spec construction
(line 344): the comma-separated key:type items, keys keeping their optional
marker. -/
def re_dict_match (s : String) : Option (List (String × String)) :=
  if s.startsWith "dict<" && s.endsWith ">" then
    let inner := (s.drop 5).dropRight 1
    let items := inner.splitOn ","
    if items.all dict_item_ok then
      some (items.map (fun item =>
        match item.splitOn ":" with
        | [k, ty] => (k, ty)
        | _ => (item, item)))
    else none
  else none

/-- The validator closure AttrSpec._init_validator_function installs,
represented first order; eval_validator reproduces the closure's body. -/
inductive VFun where
  | prim (dt : String)
  | category_list (cats : List PyVal)
  | category_str
  | array_of (dt : String)
  | set_of (dt : String)
  | link_v
  | dict_of (key_spec : List (String × String))

/-- attrspec.py AttrSpec._init_validator_function (lines 315-350): picks the
value validator from the data_type string; element and field types must be
primitive; an unsupported data type is an AssertionError (InvalidSpec). -/
def init_validator_function (data_type : String) (categories : Option (List PyVal)) :
    Except String VFun :=
  if primitive_data_types.contains data_type then .ok (.prim data_type)
  else if data_type = "category" then
    match categories with
    | none => .ok .category_str
    | some cats => .ok (.category_list cats)
  else
    match re_array_match data_type with
    | some et =>
        if primitive_data_types.contains et then .ok (.array_of et)
        else .error ("data type is not supported as an array element")
    | none =>
      match re_set_match data_type with
      | some et =>
          if primitive_data_types.contains et then .ok (.set_of et)
          else .error ("data type is not supported as a set element")
      | none =>
        match re_link_match data_type with
        | some _ => .ok .link_v
        | none =>
          match re_dict_match data_type with
          | some ks =>
              if ks.all (fun p => primitive_data_types.contains p.2) then .ok (.dict_of ks)
              else .error ("data type is not supported as a dict field")
          | none => .error ("data type is not supported")

/-- Evaluating an installed validator closure on a runtime value. -/
def eval_validator (f : VFun) (v : PyVal) : Except PyErr PyRes :=
  match f with
  | .prim dt => validators dt v
  | .category_list cats => .ok (.bool (py_in v cats))
  | .category_str => validators "string" v
  | .array_of dt => valid_array v dt
  | .set_of dt => valid_set v dt
  | .link_v => .ok (.bool (match v with | .pynone => false | _ => true))
  | .dict_of ks => valid_dict v ks

/-- The value validator of a constructed non-probability plain/observations
AttrSpec, as a single run: construction then evaluation. -/
def value_validator (data_type : String) (categories : Option (List PyVal)) (v : PyVal) :
    Except String (Except PyErr PyRes) :=
  (init_validator_function data_type categories).map (fun f => eval_validator f v)

/-- Whether an installed validator reaches the re.match based mac or time
primitive validators (the only ones that can raise or return a non-bool). -/
def uses_re_match : VFun → Bool
  | .prim dt => dt == "mac" || dt == "time"
  | .array_of dt => dt == "mac" || dt == "time"
  | .set_of dt => dt == "mac" || dt == "time"
  | .dict_of ks => ks.any (fun p => p.2 == "mac" || p.2 == "time")
  | _ => false

/-! Observation helpers and the concrete instances the closed witness and
counterexample theorems evaluate. -/

/-- The datapoints persisted by a mutation batch (its create_datapoint
calls), in order. -/
def creates_of (l : List Mut) : List DP :=
  l.filterMap (fun m => match m with | .create dp => some dp | _ => none)

/-- A history-params record with the default selectors (keep, avg,
csv_union) and one-second validities. -/
def hp_keep : HParams :=
  { pre_validity := 1, post_validity := 1, aggregation_interval := 2,
    aggregation_max_age := 0, max_age := none, max_items := none, expire_time := none,
    aggregation_function_value := "keep", aggregation_function_confidence := "avg",
    aggregation_function_source := "csv_union" }

/-- hp_keep with the default zero validities (attrspec.py defaults both
pre_validity and post_validity to the zero duration). -/
def hp_zero : HParams := { hp_keep with pre_validity := 0, post_validity := 0 }

/-- A unit-interval datapoint at the origin with confidence 1. -/
def d_unit : DP :=
  { id := 1, eid := 1, v := .num 1, c := 1, src := "A", t1 := 0, t2 := 0, tag := .plain }

/-- d_unit with another value and id. -/
def d_unit2 : DP := { d_unit with id := 2, v := .num 2 }

/-- A REDUNDANT constituent on the interval 0 to 2. -/
def split_r0 : DP :=
  { id := 1, eid := 7, v := .num 1, c := 1, src := "A", t1 := 0, t2 := 2, tag := .redundant }

/-- A REDUNDANT constituent on the interval 3 to 5. -/
def split_r1 : DP :=
  { id := 2, eid := 7, v := .num 1, c := 1, src := "B", t1 := 3, t2 := 5, tag := .redundant }

/-- The AGGREGATED datapoint covering split_r0 and split_r1. -/
def split_parent : DP :=
  { id := 9, eid := 7, v := .num 1, c := 1, src := "A,B", t1 := 0, t2 := 5, tag := .aggregated }

/-- A store with two constituents and their aggregate. -/
def db_split2 : Db := [split_r0, split_r1, split_parent]

/-- A single REDUNDANT constituent spanning its aggregate's whole
interval. -/
def split_solo : DP :=
  { id := 1, eid := 7, v := .num 1, c := 1, src := "A", t1 := 0, t2 := 10, tag := .redundant }

/-- The AGGREGATED datapoint whose only constituent is split_solo. -/
def split_parent1 : DP :=
  { id := 9, eid := 7, v := .num 1, c := 1, src := "A", t1 := 0, t2 := 10, tag := .aggregated }

/-- A store with one constituent and its aggregate. -/
def db_split1 : Db := [split_solo, split_parent1]

/-- A stored PLAIN datapoint on 0 to 10 with value 2. -/
def ov_plain : DP :=
  { id := 1, eid := 3, v := .num 2, c := 1, src := "A", t1 := 0, t2 := 10, tag := .plain }

/-- A store holding only ov_plain. -/
def db_plain : Db := [ov_plain]

/-- An incoming datapoint on 2 to 6 with value 5: under the keep value
selector it is not mergeable with ov_plain or ov_agg. -/
def data_in : DP :=
  { id := 0, eid := 3, v := .num 5, c := 1, src := "B", t1 := 2, t2 := 6, tag := .plain }

/-- ov_plain tagged AGGREGATED (no constituents exist in db_agg). -/
def ov_agg : DP :=
  { id := 1, eid := 3, v := .num 2, c := 1, src := "A", t1 := 0, t2 := 10, tag := .aggregated }

/-- A store holding only ov_agg. -/
def db_agg : Db := [ov_agg]

/-- The history_params input carrying the selector "min": attrspec.py admits
it although history_manager.py's merge dicts do not define it. -/
def input_min : HistoryParamsInput :=
  { max_age := none, max_items := none, expire_time := none, pre_validity := none,
    post_validity := none, aggregation_max_age := none, aggregation_interval := none,
    aggregation_function_value := some "min", aggregation_function_confidence := none,
    aggregation_function_source := none }

/-- The validated spec input_min yields. -/
def hp_min : HParams :=
  { pre_validity := 0, post_validity := 0, aggregation_interval := 0,
    aggregation_max_age := 0, max_age := none, max_items := none, expire_time := none,
    aggregation_function_value := "min", aggregation_function_confidence := "avg",
    aggregation_function_source := "csv_union" }

/-! Theorems. -/

/-- Claim C2 as stated is false: two seconds past t2 with post_validity one
second the multiplier is 1 - 2 and extrapolate_confidence returns a negative
confidence, violating the claimed lower bound 0. -/
theorem C2_counterexample :
    ∃ r, extrapolate_confidence d_unit 2 hp_keep = .ok r ∧ r < 0 ∧ d_unit.c = 1 := by
  refine ⟨_, rfl, ?_, rfl⟩
  norm_num [d_unit, hp_keep]

/-- Claim C2 (amended): for positive base confidence, at an instant no
farther past the interval than the relevant (positive) validity window,
extrapolate_confidence is defined, lies in the closed interval from 0 to
d.c, and equals d.c exactly on the closed interval from t1 to t2.  The
counterexample forces restricting the instant to the validity windows; the
equality direction also needs d.c positive (at zero confidence the value
d.c is attained outside the interval as well). -/
theorem C2_extrapolate_confidence_bounds (d : DP) (t : ℚ) (hp : HParams)
    (hc : 0 < d.c)
    (hpost : d.t2 < t → 0 < hp.post_validity ∧ t - d.t2 ≤ hp.post_validity)
    (hpre : t < d.t1 → 0 < hp.pre_validity ∧ d.t1 - t ≤ hp.pre_validity) :
    ∃ r, extrapolate_confidence d t hp = .ok r ∧ 0 ≤ r ∧ r ≤ d.c ∧
      (r = d.c ↔ (d.t1 ≤ t ∧ t ≤ d.t2)) := by
  simp only [extrapolate_confidence]
  by_cases h2 : d.t2 < t
  · obtain ⟨hpv, hd⟩ := hpost h2
    rw [if_pos h2, if_neg hpv.ne']
    have hq : 0 < (t - d.t2) / hp.post_validity := div_pos (by linarith) hpv
    have hq1 : (t - d.t2) / hp.post_validity ≤ 1 := (div_le_one hpv).mpr hd
    have hlt : d.c * (1 - (t - d.t2) / hp.post_validity) < d.c := by nlinarith
    refine ⟨_, rfl, ?_, le_of_lt hlt, ?_⟩
    · exact mul_nonneg hc.le (by linarith)
    · exact iff_of_false (ne_of_lt hlt) (fun h => absurd h2 (not_lt.mpr h.2))
  · rw [if_neg h2]
    by_cases h1 : d.t1 > t
    · obtain ⟨hpv, hd⟩ := hpre h1
      rw [if_pos h1, if_neg hpv.ne']
      have hq : 0 < (d.t1 - t) / hp.pre_validity := div_pos (by linarith) hpv
      have hq1 : (d.t1 - t) / hp.pre_validity ≤ 1 := (div_le_one hpv).mpr hd
      have hlt : d.c * (1 - (d.t1 - t) / hp.pre_validity) < d.c := by nlinarith
      refine ⟨_, rfl, ?_, le_of_lt hlt, ?_⟩
      · exact mul_nonneg hc.le (by linarith)
      · exact iff_of_false (ne_of_lt hlt) (fun h => absurd h1 (not_lt.mpr h.1))
    · rw [if_neg h1]
      exact ⟨d.c, rfl, hc.le, le_refl _,
        iff_of_true rfl ⟨not_lt.mp h1, not_lt.mp h2⟩⟩

/-- Witness for the amended C2 at a concrete inside instant. -/
theorem C2_witness :
    ∃ r, extrapolate_confidence d_unit 0 hp_keep = .ok r ∧ 0 ≤ r ∧ r ≤ d_unit.c ∧
      (r = d_unit.c ↔ (d_unit.t1 ≤ 0 ∧ (0 : ℚ) ≤ d_unit.t2)) :=
  C2_extrapolate_confidence_bounds d_unit 0 hp_keep (by norm_num [d_unit])
    (by norm_num [d_unit]) (by norm_num [d_unit])

/-- Claim C5 as stated is false: with zero post_validity and an instant past
t2, extrapolate_confidence raises ZeroDivisionError instead of returning
0. -/
theorem C5_counterexample :
    extrapolate_confidence d_unit 1 hp_zero = .error .zeroDivisionError ∧
      extrapolate_confidence d_unit 1 hp_zero ≠ .ok 0 := by decide

/-- Claim C5 (amended): for an instant strictly outside the interval whose
relevant validity window is zero, extrapolate_confidence faults with
ZeroDivisionError (the division is unguarded); it never returns 0 there. -/
theorem C5_zero_validity_faults (d : DP) (t : ℚ) (hp : HParams)
    (h : (d.t2 < t ∧ hp.post_validity = 0) ∨
         (¬ d.t2 < t ∧ t < d.t1 ∧ hp.pre_validity = 0)) :
    extrapolate_confidence d t hp = .error .zeroDivisionError := by
  simp only [extrapolate_confidence]
  rcases h with ⟨h1, hz⟩ | ⟨h1, h2, hz⟩
  · rw [if_pos h1, if_pos hz]
  · rw [if_neg h1, if_pos h2, if_pos hz]

/-- Witness for the amended C5 at a concrete instant past t2. -/
theorem C5_witness :
    extrapolate_confidence d_unit 1 hp_zero = .error .zeroDivisionError :=
  C5_zero_validity_faults d_unit 1 hp_zero (Or.inl (by decide))

/-- Equality tests commute for any lawful boolean equality. -/
theorem beq_symm_lawful {α : Type} [BEq α] [LawfulBEq α] (x y : α) : (x == y) = (y == x) := by
  by_cases hxy : x = y
  · subst hxy; rfl
  · rw [beq_eq_false_iff_ne.mpr hxy, beq_eq_false_iff_ne.mpr (Ne.symm hxy)]

/-- For the four defined selectors the merge_check lookup succeeds and the
returned test is symmetric. -/
theorem merge_check_symm {α : Type} [BEq α] [LawfulBEq α] (s : String)
    (hs : s ∈ (["keep", "add", "avg", "csv_union"] : List String)) :
    ∃ f, merge_check (α := α) s = .ok f ∧ ∀ x y, f x y = f y x := by
  fin_cases hs
  · exact ⟨_, rfl, fun x y => beq_symm_lawful x y⟩
  · exact ⟨_, rfl, fun x y => rfl⟩
  · exact ⟨_, rfl, fun x y => rfl⟩
  · exact ⟨_, rfl, fun x y => rfl⟩

/-- Claim C8: mergeable is commutative whenever the three selectors are
drawn from the four keys of merge_check. -/
theorem C8_mergeable_comm (a b : DP) (params : HParams)
    (hv : params.aggregation_function_value ∈ (["keep", "add", "avg", "csv_union"] : List String))
    (hc : params.aggregation_function_confidence ∈
      (["keep", "add", "avg", "csv_union"] : List String))
    (hs : params.aggregation_function_source ∈
      (["keep", "add", "avg", "csv_union"] : List String)) :
    mergeable a b params = mergeable b a params := by
  obtain ⟨f1, e1, s1⟩ := merge_check_symm (α := Val) _ hv
  obtain ⟨f2, e2, s2⟩ := merge_check_symm (α := ℚ) _ hc
  obtain ⟨f3, e3, s3⟩ := merge_check_symm (α := String) _ hs
  simp only [mergeable, e1, e2, e3, bind, Except.bind, pure]
  rw [s1 a.v b.v, s2 a.c b.c, s3 a.src b.src]

/-- Witness for C8 at two concrete datapoints under the default
selectors. -/
theorem C8_witness : mergeable d_unit d_unit2 hp_keep = mergeable d_unit2 d_unit hp_keep :=
  C8_mergeable_comm d_unit d_unit2 hp_keep (by decide) (by decide) (by decide)

/-- Claim C4: the commit step persists an AGGREGATED aggregate and the
incoming datapoint retagged REDUNDANT exactly when the aggregate's interval
endpoints differ from the incoming datapoint's; with equal endpoints only
the incoming datapoint is persisted, its tag unchanged (PLAIN at this point
of process_datapoint), regardless of what merging did to the aggregate's v,
c or src (the equation quantifies over them). -/
theorem C4_commit_creates (agg data : DP) (rids : List Nat) (rdata : List DP)
    (dids : List Nat) :
    creates_of (commit_step agg data rids rdata dids) =
      if agg.t1 ≠ data.t1 ∨ agg.t2 ≠ data.t2 then
        [{ agg with tag := Tag.aggregated }, { data with tag := Tag.redundant }]
      else [data] := by
  unfold commit_step
  by_cases h : agg.t1 ≠ data.t1 ∨ agg.t2 ≠ data.t2 <;>
  by_cases h1 : rids.length > 0 <;>
  by_cases h2 : dids.length > 0 <;>
  simp [h, h1, h2, creates_of]

/-- A validated history_params record carries exactly the merged selector
inputs, and they passed the membership asserts against
aggregation_functions. -/
theorem validate_ok_selectors (input : HistoryParamsInput) (hp : HParams)
    (h : validate_history_params input = .ok hp) :
    hp.aggregation_function_value = input.aggregation_function_value.getD "keep" ∧
    hp.aggregation_function_confidence = input.aggregation_function_confidence.getD "avg" ∧
    hp.aggregation_function_source = input.aggregation_function_source.getD "csv_union" ∧
    hp.aggregation_function_value ∈ aggregation_functions ∧
    hp.aggregation_function_confidence ∈ aggregation_functions ∧
    hp.aggregation_function_source ∈ aggregation_functions := by
  unfold validate_history_params at h
  simp only [bind, Except.bind, pure, Except.pure] at h
  repeat' split at h
  all_goals cases h
  all_goals refine ⟨rfl, rfl, rfl, ?_, ?_, ?_⟩ <;> simp_all

/-- Claim C7 (amended): validation fails with InvalidSpec whenever one of
the three merged selectors lies outside aggregation_functions, and a
constructed spec never carries a selector outside that list; the list is
the six-element one of attrspec.py (with min and max), not the four-element
set of the claim, as the counterexample shows. -/
theorem C7_selector_membership (input : HistoryParamsInput) :
    (∀ hp, validate_history_params input = .ok hp →
        hp.aggregation_function_value ∈ aggregation_functions ∧
        hp.aggregation_function_confidence ∈ aggregation_functions ∧
        hp.aggregation_function_source ∈ aggregation_functions) ∧
    ((input.aggregation_function_value.getD "keep" ∉ aggregation_functions ∨
      input.aggregation_function_confidence.getD "avg" ∉ aggregation_functions ∨
      input.aggregation_function_source.getD "csv_union" ∉ aggregation_functions) →
      ∃ e, validate_history_params input = .error e) := by
  constructor
  · intro hp h
    obtain ⟨-, -, -, m1, m2, m3⟩ := validate_ok_selectors input hp h
    exact ⟨m1, m2, m3⟩
  · intro hbad
    match hres : validate_history_params input with
    | .error e => exact ⟨e, rfl⟩
    | .ok hp =>
        obtain ⟨e1, e2, e3, m1, m2, m3⟩ := validate_ok_selectors input hp hres
        rcases hbad with hb | hb | hb
        · exact absurd (e1 ▸ m1) hb
        · exact absurd (e2 ▸ m2) hb
        · exact absurd (e3 ▸ m3) hb

/-- Claim C7 as stated is false: the selector "min" lies outside the
claimed four-element set, yet AttrSpec construction accepts it (the
attrspec.py list also has min and max). -/
theorem C7_counterexample :
    validate_history_params input_min = .ok hp_min ∧
      hp_min.aggregation_function_value = "min" ∧
      hp_min.aggregation_function_value ∉ (["keep", "add", "avg", "csv_union"] : List String) :=
  ⟨by with_unfolding_all rfl, rfl, by decide⟩

/-- Every primitive validator except the re.match based mac and time is
total and returns a bool. -/
theorem validators_total (dt : String) (hdt : dt ∈ primitive_data_types)
    (hmac : dt ≠ "mac") (htime : dt ≠ "time") :
    ∀ v, ∃ b, validators dt v = .ok (.bool b) := by
  intro v
  fin_cases hdt <;>
    first
      | exact absurd rfl hmac
      | exact absurd rfl htime
      | exact ⟨_, rfl⟩

/-- The element walk of valid_array is total for a primitive element type
other than mac and time. -/
theorem valid_array_items_total (dt : String) (hdt : dt ∈ primitive_data_types)
    (hmac : dt ≠ "mac") (htime : dt ≠ "time") (l : List PyVal) :
    ∃ b, valid_array_items dt l = .ok b := by
  induction l with
  | nil => exact ⟨true, rfl⟩
  | cons x xs ih =>
      obtain ⟨bx, hbx⟩ := validators_total dt hdt hmac htime x
      obtain ⟨br, hbr⟩ := ih
      cases bx
      · exact ⟨false, by simp [valid_array_items, bind, Except.bind, pure, Except.pure, hbx, py_truthy]⟩
      · exact ⟨br, by simp [valid_array_items, bind, Except.bind, pure, Except.pure, hbx, py_truthy, hbr]⟩

/-- The element walk of valid_set is total for a primitive element type
other than mac and time. -/
theorem valid_set_items_total (dt : String) (hdt : dt ∈ primitive_data_types)
    (hmac : dt ≠ "mac") (htime : dt ≠ "time") (obj l : List PyVal) :
    ∃ b, valid_set_items dt obj l = .ok b := by
  induction l with
  | nil => exact ⟨true, rfl⟩
  | cons x xs ih =>
      obtain ⟨bx, hbx⟩ := validators_total dt hdt hmac htime x
      obtain ⟨br, hbr⟩ := ih
      cases bx
      · exact ⟨false, by simp [valid_set_items, bind, Except.bind, pure, Except.pure, hbx, py_truthy]⟩
      · by_cases hcount : count_py obj x > 1
        · exact ⟨false, by simp [valid_set_items, bind, Except.bind, pure, Except.pure, hbx, py_truthy, hcount]⟩
        · exact ⟨br, by simp [valid_set_items, bind, Except.bind, pure, Except.pure, hbx, py_truthy, hcount, hbr]⟩

/-- The key walk of valid_dict is total when every declared field type is
primitive and none is mac or time. -/
theorem valid_dict_keys_total (obj : List (String × PyVal)) (ks : List (String × String))
    (hks : ∀ p ∈ ks, p.2 ∈ primitive_data_types ∧ p.2 ≠ "mac" ∧ p.2 ≠ "time") :
    ∃ b, valid_dict_keys obj ks = .ok b := by
  induction ks with
  | nil => exact ⟨true, rfl⟩
  | cons p ps ih =>
      obtain ⟨hdt, hmac, htime⟩ := hks p (List.mem_cons_self p ps)
      have ihs := ih (fun q hq => hks q (List.mem_cons_of_mem p hq))
      obtain ⟨br, hbr⟩ := ihs
      match hl : dict_lookup obj p.1 with
      | none =>
          by_cases hopt : p.1.endsWith "?"
          · exact ⟨br, by simp [valid_dict_keys, bind, Except.bind, pure, Except.pure, hl, hopt, hbr]⟩
          · exact ⟨false, by simp [valid_dict_keys, bind, Except.bind, pure, Except.pure, hl, hopt]⟩
      | some x =>
          obtain ⟨bx, hbx⟩ := validators_total p.2 hdt hmac htime x
          cases bx
          · exact ⟨false, by simp [valid_dict_keys, bind, Except.bind, pure, Except.pure, hl, hbx, py_truthy]⟩
          · exact ⟨br, by simp [valid_dict_keys, bind, Except.bind, pure, Except.pure, hl, hbx, py_truthy, hbr]⟩

/-- Claim C6 (amended): a successfully constructed value validator is total
and boolean on every runtime value provided its data type does not reach the
re.match based mac or time validators; those raise TypeError on non-string
input and return a match object rather than a boolean on strings, as the
counterexample shows. -/
theorem C6_validator_totality (data_type : String) (categories : Option (List PyVal))
    (f : VFun) (hok : init_validator_function data_type categories = .ok f)
    (hre : uses_re_match f = false) :
    ∀ v, ∃ b, eval_validator f v = .ok (.bool b) := by
  intro v
  unfold init_validator_function at hok
  split at hok
  · -- primitive data type
    rename_i hprim
    injection hok with hok
    subst hok
    simp only [uses_re_match, Bool.or_eq_false_iff, beq_eq_false_iff_ne] at hre
    exact validators_total data_type (by simpa using hprim) hre.1 hre.2 v
  · split at hok
    · -- category
      split at hok <;> injection hok with hok <;> subst hok
      · exact ⟨_, rfl⟩
      · exact ⟨_, rfl⟩
    · -- parameterized forms
      split at hok
      · -- array
        rename_i et harr
        split at hok
        · rename_i hprim
          injection hok with hok
          subst hok
          simp only [uses_re_match, Bool.or_eq_false_iff, beq_eq_false_iff_ne] at hre
          cases v with
          | list l =>
              obtain ⟨b, hb⟩ := valid_array_items_total et (by simpa using hprim)
                hre.1 hre.2 l
              exact ⟨b, by simp [eval_validator, valid_array, hb, Except.map]⟩
          | _ => exact ⟨false, rfl⟩
        · cases hok
      · split at hok
        · -- set
          rename_i et hset
          split at hok
          · rename_i hprim
            injection hok with hok
            subst hok
            simp only [uses_re_match, Bool.or_eq_false_iff, beq_eq_false_iff_ne] at hre
            cases v with
            | list l =>
                obtain ⟨b, hb⟩ := valid_set_items_total et (by simpa using hprim)
                  hre.1 hre.2 l l
                exact ⟨b, by simp [eval_validator, valid_set, hb, Except.map]⟩
            | _ => exact ⟨false, rfl⟩
          · cases hok
        · split at hok
          · -- link
            injection hok with hok
            subst hok
            exact ⟨_, rfl⟩
          · split at hok
            · -- dict
              rename_i ks hdict
              split at hok
              · rename_i hall
                injection hok with hok
                subst hok
                simp only [uses_re_match] at hre
                simp only [List.all_eq_true] at hall
                have hre' : ∀ p ∈ ks, p.2 ≠ "mac" ∧ p.2 ≠ "time" := by
                  intro p hp
                  have h : (p.2 == "mac" || p.2 == "time") = false := by
                    by_contra hc
                    have hx : (p.2 == "mac" || p.2 == "time") = true := by
                      revert hc
                      cases (p.2 == "mac" || p.2 == "time") <;> simp
                    have : ks.any (fun q => q.2 == "mac" || q.2 == "time") = true :=
                      List.any_eq_true.mpr ⟨p, hp, hx⟩
                    rw [this] at hre
                    cases hre
                  simp only [Bool.or_eq_false_iff, beq_eq_false_iff_ne] at h
                  exact h
                cases v with
                | dict obj =>
                    obtain ⟨b, hb⟩ := valid_dict_keys_total obj ks
                      (fun p hp => ⟨by simpa using hall p hp, (hre' p hp).1, (hre' p hp).2⟩)
                    exact ⟨b, by simp [eval_validator, valid_dict, hb, Except.map]⟩
                | _ => exact ⟨false, rfl⟩
              · cases hok
            · cases hok

/-- Claim C6 as stated is false: the validator of the valid primitive data
type mac raises TypeError on a non-string value and returns an re.Match
object, not a boolean, on a matching string. -/
theorem C6_counterexample :
    value_validator "mac" none (.int 5) = .ok (.error .typeError) ∧
      value_validator "mac" none (.str "aa:bb:cc:dd:ee:ff") = .ok (.ok .matchObj) := by
  decide

/-- Witness for the amended C6 at the int validator and an integer value. -/
theorem C6_witness : ∃ b, eval_validator (.prim "int") (.int 5) = .ok (.bool b) :=
  C6_validator_totality "int" none (.prim "int") (by with_unfolding_all rfl)
    (by with_unfolding_all rfl) (.int 5)

/-- A fold step of the single-value confidence update skips every datapoint
whose value differs from the current one. -/
theorem single_fold_skips (rec_v : Val) (t_now : ℚ) (hp : HParams) (l : List DP)
    (hno : ∀ d ∈ l, d.v ≠ rec_v) (acc : Option ℚ) :
    l.foldlM (fun (best : Option ℚ) d =>
      if !(d.v == rec_v) then pure best
      else do
        let confidence ← extrapolate_confidence d t_now hp
        match best with
        | none => pure (some confidence)
        | some b => if b < confidence then pure (some confidence) else pure (some b))
      acc = (.ok acc : Except PyErr (Option ℚ)) := by
  induction l generalizing acc with
  | nil => rfl
  | cons d ds ih =>
      have hd : d.v ≠ rec_v := hno d (List.mem_cons_self d ds)
      have ihs := ih (fun x hx => hno x (List.mem_cons_of_mem d hx))
      rw [List.foldlM_cons, if_pos (by simp [beq_eq_false_iff_ne.mpr hd])]
      simp only [pure, Except.pure, bind, Except.bind]
      exact ihs acc

/-- The multi-value fold never writes a position whose value no datapoint of
the folded list carries: its entry stays whatever it started as. -/
theorem multi_fold_preserves (rec_v : List Val) (t_now : ℚ) (hp : HParams) (i : Nat)
    (l : List DP) (hno : ∀ d ∈ l, rec_v[i]? ≠ some d.v) (acc : List ℚ) (res : List ℚ)
    (h : l.foldlM (fun (best : List ℚ) d =>
      if !(rec_v.contains d.v) then pure best
      else do
        let confidence ← extrapolate_confidence d t_now hp
        if best.getD (rec_v.findIdx (fun x => x == d.v)) 0 < confidence then
          pure (best.set (rec_v.findIdx (fun x => x == d.v)) confidence)
        else pure best)
      acc = (.ok res : Except PyErr (List ℚ)))
    (hacc : acc.getD i 0 = 0) : res.getD i 0 = 0 := by
  induction l generalizing acc with
  | nil =>
      simp only [List.foldlM_nil] at h
      cases h
      exact hacc
  | cons d ds ih =>
      rw [List.foldlM_cons] at h
      by_cases hc : rec_v.contains d.v
      · have hex : ∃ x ∈ rec_v, (fun x => x == d.v) x := by
          obtain ⟨x, hx, hbeq⟩ := List.contains_iff_exists_mem_beq.mp hc
          have hx' : x = d.v := (eq_of_beq hbeq).symm
          exact ⟨x, hx, by simp [hx']⟩
        have hlt : rec_v.findIdx (fun x => x == d.v) < rec_v.length :=
          List.findIdx_lt_length_of_exists hex
        have hne : rec_v.findIdx (fun x => x == d.v) ≠ i := by
          intro hEq
          apply hno d (List.mem_cons_self d ds)
          have hsat := List.findIdx_of_getElem?_eq_some (p := fun x => x == d.v)
            (List.getElem?_eq_getElem hlt)
          simp only [beq_iff_eq] at hsat
          rw [← hEq, List.getElem?_eq_getElem hlt, hsat]
        have hmem : d.v ∈ rec_v := by simpa using hc
        rw [if_neg (by simp [hmem])] at h
        match hext : extrapolate_confidence d t_now hp with
        | .error e =>
            rw [hext] at h
            simp [bind, Except.bind] at h
        | .ok conf =>
            rw [hext] at h
            simp only [bind, Except.bind] at h
            by_cases hcond : acc.getD (rec_v.findIdx (fun x => x == d.v)) 0 < conf
            · rw [if_pos hcond] at h
              refine ih (fun x hx => hno x (List.mem_cons_of_mem d hx)) _ h ?_
              rw [List.getD_eq_getElem?_getD, List.getElem?_set_ne hne,
                ← List.getD_eq_getElem?_getD]
              exact hacc
            · rw [if_neg hcond] at h
              exact ih (fun x hx => hno x (List.mem_cons_of_mem d hx)) _ h hacc
      · have hmem : d.v ∉ rec_v := by simpa using hc
        rw [if_pos (by simp [hmem])] at h
        simp only [pure, Except.pure, bind, Except.bind] at h
        exact ih (fun x hx => hno x (List.mem_cons_of_mem d hx)) _ h hacc

/-- Claim C9: in the confidence step of manage_current_entity_values, a
single-value attribute whose window holds no datapoint matching the current
value keeps its stored confidence unchanged (also when the entity guard
skips it), and for a multi-value attribute a completed update leaves 0.0 at
every position whose value matches no datapoint of the window. -/
theorem C9_confidence_defaults :
    (∀ (rec_v : Val) (rec_c : Option ℚ) (dps : List DP) (t_now : ℚ) (hp : HParams),
       (∀ d ∈ dps, d.v ≠ rec_v) →
       manage_confidence_single rec_v rec_c dps t_now hp = .ok rec_c) ∧
    (∀ (rec_v : List Val) (rec_c : Option (List ℚ)) (dps : List DP) (t_now : ℚ)
       (hp : HParams) (best : List ℚ) (i : Nat),
       manage_confidence_multi rec_v rec_c dps t_now hp = .ok (some best) →
       (∀ d ∈ dps, rec_v[i]? ≠ some d.v) →
       best.getD i 0 = 0) := by
  constructor
  · intro rec_v rec_c dps t_now hp hno
    by_cases hg : truthy_single rec_c
    · have hf := single_fold_skips rec_v t_now hp dps hno none
      unfold manage_confidence_single
      rw [if_neg (by simp [hg])]
      simp only [bind, Except.bind] at hf ⊢
      rw [hf]
    · unfold manage_confidence_single
      rw [if_pos (by simp [hg])]
  · intro rec_v rec_c dps t_now hp best i h hno
    unfold manage_confidence_multi at h
    by_cases hg : truthy_multi rec_c
    · rw [if_neg (by simp [hg])] at h
      cases hfold : dps.foldlM (fun (best : List ℚ) d =>
          if !(rec_v.contains d.v) then pure best
          else do
            let confidence ← extrapolate_confidence d t_now hp
            if best.getD (rec_v.findIdx (fun x => x == d.v)) 0 < confidence then
              pure (best.set (rec_v.findIdx (fun x => x == d.v)) confidence)
            else pure best)
          (rec_v.map (fun _ => (0 : ℚ))) with
      | error e =>
          rw [hfold] at h
          simp [bind, Except.bind] at h
      | ok res =>
          rw [hfold] at h
          simp only [bind, Except.bind, pure, Except.pure, Except.ok.injEq,
            Option.some.injEq] at h
          subst h
          refine multi_fold_preserves rec_v t_now hp i dps hno _ res hfold ?_
          rw [List.getD_eq_getElem?_getD, List.getElem?_map]
          cases rec_v[i]? <;> simp
    · rw [if_pos (by simp [hg])] at h
      cases rec_c with
      | none => cases h
      | some l =>
          injection h with h
          injection h with h
          subst h
          simp only [truthy_multi, Bool.not_eq_true', Bool.not_eq_false] at hg
          rw [List.isEmpty_iff.mp hg]
          rfl

/-- merge is total when the value selector is keep, the confidence selector
numeric (keep, add or avg) and the source selector one of keep, add or
csv_union. -/
theorem merge_total (hp : HParams) (hfv : hp.aggregation_function_value = "keep")
    (hfc : hp.aggregation_function_confidence ∈ (["keep", "add", "avg"] : List String))
    (hfs : hp.aggregation_function_source ∈ (["keep", "add", "csv_union"] : List String))
    (a b : DP) : ∃ m, merge a b hp = .ok m := by
  unfold merge
  rw [hfv]
  simp only [List.mem_cons, List.not_mem_nil, or_false] at hfc hfs
  rcases hfc with h2 | h2 | h2 <;> rcases hfs with h3 | h3 | h3 <;> rw [h2, h3] <;>
    simp [merge_apply_val, merge_apply_conf, merge_apply_src, bind, Except.bind,
      pure, Except.pure]

/-- split_datapoint's tail loop is total under the same selector
conditions. -/
theorem split_loop_after_total (hp : HParams)
    (hfv : hp.aggregation_function_value = "keep")
    (hfc : hp.aggregation_function_confidence ∈ (["keep", "add", "avg"] : List String))
    (hfs : hp.aggregation_function_source ∈ (["keep", "add", "csv_union"] : List String))
    (agg : DP) (l : List DP) : ∃ m, split_loop_after hp agg l = .ok m := by
  induction l generalizing agg with
  | nil => exact ⟨agg, rfl⟩
  | cons r rest ih =>
      obtain ⟨m1, hm1⟩ := merge_total hp hfv hfc hfs agg r
      obtain ⟨m2, hm2⟩ := ih m1
      exact ⟨m2, by simp [split_loop_after, hm1, hm2, bind, Except.bind]⟩

/-- The flag automaton of split_datapoint's loop, characterized: the prefix
of constituents starting at or before the pivot is merge-folded onto the
running aggregate; the first constituent starting after the pivot (the head
of the dropWhile suffix) seeds the second aggregate, folded over the rest of
the suffix. -/
theorem split_loop_eq (hp : HParams) (pivot : ℚ) (agg : DP) (l : List DP) :
    split_loop hp pivot agg l =
      match l.dropWhile (fun r => !(decide (pivot < r.t1))) with
      | [] => (split_loop_after hp agg l).map (fun final => (final, none))
      | tmp2 :: tail2 =>
          (split_loop_after hp agg (l.takeWhile (fun r => !(decide (pivot < r.t1))))).bind
            (fun t1agg =>
              (split_loop_after hp tmp2 tail2).map (fun final => (final, some (t1agg, tmp2)))) := by
  induction l generalizing agg with
  | nil => rfl
  | cons r rest ih =>
      by_cases hr : pivot < r.t1
      · rw [List.dropWhile_cons_of_neg (by simp [hr]), List.takeWhile_cons_of_neg (by simp [hr])]
        unfold split_loop
        rw [if_pos hr]
        simp only [split_loop_after, Except.bind]
      · rw [List.dropWhile_cons_of_pos (by simp [hr]), List.takeWhile_cons_of_pos (by simp [hr])]
        unfold split_loop
        rw [if_neg hr]
        cases hm : merge agg r hp with
        | error e =>
            cases hd : rest.dropWhile (fun r => !(decide (pivot < r.t1))) with
            | nil => simp [split_loop_after, hm, bind, Except.bind, Except.map]
            | cons tmp2 tail2 => simp [split_loop_after, hm, bind, Except.bind]
        | ok agg' =>
            show split_loop hp pivot agg' rest = _
            rw [ih agg']
            cases hd : rest.dropWhile (fun r => !(decide (pivot < r.t1))) with
            | nil => simp [split_loop_after, hm, bind, Except.bind]
            | cons tmp2 tail2 => simp [split_loop_after, hm, bind, Except.bind]

/-- Claim C3 (amended): over the queried constituents r0 :: rest (REDUNDANT
rows of the split datapoint's closed interval, ascending by t1),
split_datapoint partitions at the pivot by the constituents' START times —
the prefix with t1 at or before the pivot against the suffix after it — not
by their end times, and persists exactly two datapoints: the merge-fold of
r0 (its t1 replaced by the split datapoint's t1) with the prefix, and the
merge-fold of the suffix; each is tagged PLAIN when its interval check
matches a single constituent and AGGREGATED otherwise.  It is defined only
when, beyond the claim's conditions, some constituent starts strictly after
the pivot (otherwise the source faults reading the unassigned tmp1) and the
aggregation functions are total on the fields. -/
theorem C3_split_partition (db : Db) (hp : HParams) (data : DP) (pivot : ℚ)
    (r0 : DP) (rest : List DP)
    (hq : get_datapoints_range db data.eid data.t1 data.t2 true (some 0) (some false)
        = r0 :: rest)
    (h0 : r0.t1 < pivot)
    (hx : ∃ r ∈ rest, pivot < r.t1)
    (hfv : hp.aggregation_function_value = "keep")
    (hfc : hp.aggregation_function_confidence ∈ (["keep", "add", "avg"] : List String))
    (hfs : hp.aggregation_function_source ∈ (["keep", "add", "csv_union"] : List String)) :
    ∃ tmp2 tail2 t1agg t2agg,
      rest.dropWhile (fun r => !(decide (pivot < r.t1))) = tmp2 :: tail2 ∧
      split_loop_after hp { r0 with t1 := data.t1 }
        (rest.takeWhile (fun r => !(decide (pivot < r.t1)))) = .ok t1agg ∧
      split_loop_after hp tmp2 tail2 = .ok t2agg ∧
      (split_datapoint db hp data pivot).err = none ∧
      creates_of (split_datapoint db hp data pivot).muts =
        [{ t1agg with tag := if t1agg.t2 = r0.t2 then Tag.plain else Tag.aggregated },
         { t2agg with tag := if t2agg.t1 = tmp2.t1 then Tag.plain else Tag.aggregated }] := by
  have hd : rest.dropWhile (fun r => !(decide (pivot < r.t1))) ≠ [] := by
    rw [Ne, List.dropWhile_eq_nil_iff]
    push_neg
    obtain ⟨r, hr, hlt⟩ := hx
    exact ⟨r, hr, by simp [hlt]⟩
  obtain ⟨tmp2, tail2, hdrop⟩ :
      ∃ a l, rest.dropWhile (fun r => !(decide (pivot < r.t1))) = a :: l := by
    cases hcase : rest.dropWhile (fun r => !(decide (pivot < r.t1))) with
    | nil => exact absurd hcase hd
    | cons a l => exact ⟨a, l, rfl⟩
  obtain ⟨t1agg, ht1⟩ := split_loop_after_total hp hfv hfc hfs
    { r0 with t1 := data.t1 } (rest.takeWhile (fun r => !(decide (pivot < r.t1))))
  obtain ⟨t2agg, ht2⟩ := split_loop_after_total hp hfv hfc hfs tmp2 tail2
  have hres : split_datapoint db hp data pivot =
      { muts := [Mut.deleteOne data.id]
          ++ (if t1agg.t2 = r0.t2 then
                [Mut.deleteOne r0.id, Mut.create { t1agg with tag := .plain }]
              else [Mut.create { t1agg with tag := .aggregated }])
          ++ (if t2agg.t1 = tmp2.t1 then
                [Mut.deleteOne tmp2.id, Mut.create { t2agg with tag := .plain }]
              else [Mut.create { t2agg with tag := .aggregated }]),
        db := ([Mut.deleteOne data.id]
          ++ (if t1agg.t2 = r0.t2 then
                [Mut.deleteOne r0.id, Mut.create { t1agg with tag := .plain }]
              else [Mut.create { t1agg with tag := .aggregated }])
          ++ (if t2agg.t1 = tmp2.t1 then
                [Mut.deleteOne tmp2.id, Mut.create { t2agg with tag := .plain }]
              else [Mut.create { t2agg with tag := .aggregated }])).foldl apply_mut db,
        err := none } := by
    simp only [split_datapoint, hq]
    rw [if_neg (by simp [h0])]
    rw [split_loop_eq, hdrop, ht1]
    simp only [Except.bind]
    rw [ht2]
    simp only [Except.map]
  refine ⟨tmp2, tail2, t1agg, t2agg, hdrop, ht1, ht2, by rw [hres], ?_⟩
  rw [hres]
  by_cases c1 : t1agg.t2 = r0.t2 <;> by_cases c2 : t2agg.t1 = tmp2.t1 <;>
    simp [creates_of, c1, c2]

/-- Claim C3 as stated is false: with exactly one constituent, which starts
before the pivot, the claim asserts split_datapoint is defined, but the flag
never flips, no two aggregates are formed, and the source faults
(UnboundLocalError on tmp1) after having deleted the split datapoint's
row. -/
theorem C3_counterexample :
    get_datapoints_range db_split1 split_parent1.eid split_parent1.t1 split_parent1.t2 true
        (some 0) (some false) = [split_solo] ∧
    split_solo.t1 < 5 ∧
    (split_datapoint db_split1 hp_keep split_parent1 5).err = some .nameError ∧
    creates_of (split_datapoint db_split1 hp_keep split_parent1 5).muts = [] := by
  decide

/-- Witness for the amended C3: two constituents split at a pivot between
them, persisting exactly the two PLAIN singleton aggregates. -/
theorem C3_witness :
    ∃ tmp2 tail2 t1agg t2agg,
      [split_r1].dropWhile (fun r => !(decide ((2 : ℚ) < r.t1))) = tmp2 :: tail2 ∧
      split_loop_after hp_keep { split_r0 with t1 := split_parent.t1 }
        ([split_r1].takeWhile (fun r => !(decide ((2 : ℚ) < r.t1)))) = .ok t1agg ∧
      split_loop_after hp_keep tmp2 tail2 = .ok t2agg ∧
      (split_datapoint db_split2 hp_keep split_parent 2).err = none ∧
      creates_of (split_datapoint db_split2 hp_keep split_parent 2).muts =
        [{ t1agg with tag := if t1agg.t2 = split_r0.t2 then Tag.plain else Tag.aggregated },
         { t2agg with tag := if t2agg.t1 = tmp2.t1 then Tag.plain else Tag.aggregated }] :=
  C3_split_partition db_split2 hp_keep split_parent 2 split_r0 [split_r1]
    (by decide) (by decide) (by decide) (by decide) (by decide) (by decide)

/-- The value merge_apply lookup either returns a function whose only fault
is TypeError, or raises KeyError. -/
theorem merge_apply_val_cases (s : String) :
    (∃ f, merge_apply_val s = .ok f ∧ ∀ a b e, f a b = .error e → e = .typeError) ∨
      merge_apply_val s = .error .keyError := by
  unfold merge_apply_val
  split_ifs
  · exact Or.inl ⟨_, rfl, fun a b e h => by cases h⟩
  · refine Or.inl ⟨_, rfl, fun a b e h => ?_⟩
    cases a <;> cases b <;> simp only [py_add] at h <;> cases h <;> rfl
  · refine Or.inl ⟨_, rfl, fun a b e h => ?_⟩
    cases a <;> cases b <;> simp only [py_avg] at h <;> cases h <;> rfl
  · exact Or.inl ⟨_, rfl, fun a b e h => by cases h⟩
  · exact Or.inr rfl

/-- The confidence merge_apply lookup either returns a function whose only
fault is the embedding's untypedConfidence, or raises KeyError. -/
theorem merge_apply_conf_cases (s : String) :
    (∃ f, merge_apply_conf s = .ok f ∧ ∀ a b e, f a b = .error e → e = .untypedConfidence) ∨
      merge_apply_conf s = .error .keyError := by
  unfold merge_apply_conf
  split_ifs
  · exact Or.inl ⟨_, rfl, fun a b e h => by cases h⟩
  · exact Or.inl ⟨_, rfl, fun a b e h => by cases h⟩
  · exact Or.inl ⟨_, rfl, fun a b e h => by cases h⟩
  · exact Or.inl ⟨_, rfl, fun a b e h => by cases h; rfl⟩
  · exact Or.inr rfl

/-- The source merge_apply lookup either returns a function whose only fault
is TypeError, or raises KeyError. -/
theorem merge_apply_src_cases (s : String) :
    (∃ f, merge_apply_src s = .ok f ∧ ∀ a b e, f a b = .error e → e = .typeError) ∨
      merge_apply_src s = .error .keyError := by
  unfold merge_apply_src
  split_ifs
  · exact Or.inl ⟨_, rfl, fun a b e h => by cases h⟩
  · exact Or.inl ⟨_, rfl, fun a b e h => by cases h⟩
  · exact Or.inl ⟨_, rfl, fun a b e h => by cases h; rfl⟩
  · exact Or.inl ⟨_, rfl, fun a b e h => by cases h⟩
  · exact Or.inr rfl

/-- merge only faults with KeyError, TypeError or the embedding's
untypedConfidence, never with the overlap conflict. -/
theorem merge_err_kinds (a b : DP) (hp : HParams) (e : PyErr)
    (h : merge a b hp = .error e) :
    e = .keyError ∨ e = .typeError ∨ e = .untypedConfidence := by
  unfold merge at h
  simp only [bind, Except.bind, pure, Except.pure] at h
  rcases merge_apply_val_cases hp.aggregation_function_value with ⟨f1, hf1, he1⟩ | hf1
  · simp only [hf1] at h
    cases hv1 : f1 a.v b.v with
    | error e1 => simp only [hv1] at h; cases h; exact Or.inr (Or.inl (he1 _ _ _ hv1))
    | ok v1 =>
        simp only [hv1] at h
        rcases merge_apply_conf_cases hp.aggregation_function_confidence with
          ⟨f2, hf2, he2⟩ | hf2
        · simp only [hf2] at h
          cases hv2 : f2 a.c b.c with
          | error e2 => simp only [hv2] at h; cases h; exact Or.inr (Or.inr (he2 _ _ _ hv2))
          | ok v2 =>
              simp only [hv2] at h
              rcases merge_apply_src_cases hp.aggregation_function_source with
                ⟨f3, hf3, he3⟩ | hf3
              · simp only [hf3] at h
                cases hv3 : f3 a.src b.src with
                | error e3 => simp only [hv3] at h; cases h; exact Or.inr (Or.inl (he3 _ _ _ hv3))
                | ok v3 => simp only [hv3] at h; cases h
              · simp only [hf3] at h; cases h; exact Or.inl rfl
        · simp only [hf2] at h; cases h; exact Or.inl rfl
  · simp only [hf1] at h
    cases h
    exact Or.inl rfl

/-- The merge_check lookup either succeeds or raises KeyError. -/
theorem merge_check_cases {α : Type} [BEq α] (s : String) :
    (∃ f, merge_check (α := α) s = .ok f) ∨ merge_check (α := α) s = .error .keyError := by
  unfold merge_check
  split_ifs <;> first | exact Or.inl ⟨_, rfl⟩ | exact Or.inr rfl

/-- mergeable only faults with KeyError. -/
theorem mergeable_err_kinds (a b : DP) (hp : HParams) (e : PyErr)
    (h : mergeable a b hp = .error e) : e = .keyError := by
  unfold mergeable at h
  simp only [bind, Except.bind, pure, Except.pure] at h
  rcases merge_check_cases (α := Val) hp.aggregation_function_value with ⟨f1, hf1⟩ | hf1
  · simp only [hf1] at h
    by_cases hb1 : f1 a.v b.v
    · rw [if_pos hb1] at h
      rcases merge_check_cases (α := ℚ) hp.aggregation_function_confidence with
        ⟨f2, hf2⟩ | hf2
      · simp only [hf2] at h
        by_cases hb2 : f2 a.c b.c
        · rw [if_pos hb2] at h
          rcases merge_check_cases (α := String) hp.aggregation_function_source with
            ⟨f3, hf3⟩ | hf3
          · simp only [hf3] at h; cases h
          · simp only [hf3] at h; cases h; rfl
        · rw [if_neg hb2] at h; cases h
      · simp only [hf2] at h; cases h; rfl
    · rw [if_neg hb1] at h; cases h
  · simp only [hf1] at h; cases h; rfl

/-- mergeable is total when the three selectors are among merge_check's
keys. -/
theorem mergeable_total (hp : HParams)
    (hv : hp.aggregation_function_value ∈ (["keep", "add", "avg", "csv_union"] : List String))
    (hc : hp.aggregation_function_confidence ∈
      (["keep", "add", "avg", "csv_union"] : List String))
    (hs : hp.aggregation_function_source ∈
      (["keep", "add", "avg", "csv_union"] : List String))
    (a b : DP) : ∃ m, mergeable a b hp = .ok m := by
  obtain ⟨f1, e1, -⟩ := merge_check_symm (α := Val) _ hv
  obtain ⟨f2, e2, -⟩ := merge_check_symm (α := ℚ) _ hc
  obtain ⟨f3, e3, -⟩ := merge_check_symm (α := String) _ hs
  simp only [mergeable, e1, e2, e3, bind, Except.bind, pure, Except.pure]
  split_ifs <;> exact ⟨_, rfl⟩

/-- The collision scan raises the overlap conflict exactly when some queried
datapoint is non-mergeable, not AGGREGATED, and the attribute is not
multi-value — provided mergeable is total (defined selectors). -/
theorem collision_scan_overlap_iff (data : DP) (hp : HParams) (mv : Bool) (l : List DP)
    (htot : ∀ d, ∃ m, mergeable data d hp = .ok m) :
    (collision_scan data hp mv l = .error .overlapConflict ↔
      ∃ d ∈ l, mergeable data d hp = .ok false ∧ d.tag ≠ Tag.aggregated ∧ mv = false) := by
  induction l with
  | nil => simp [collision_scan]
  | cons d ds ih =>
      obtain ⟨m, hm⟩ := htot d
      simp only [collision_scan, hm, bind, Except.bind, pure, Except.pure]
      simp only [List.mem_cons, or_and_right, exists_or, exists_eq_left]
      by_cases hraise : (!m && !(d.tag == Tag.aggregated) && !mv) = true
      · rw [if_pos hraise]
        simp only [Bool.and_eq_true, Bool.not_eq_true'] at hraise
        obtain ⟨⟨hm0, htag⟩, hmv⟩ := hraise
        subst hm0
        exact iff_of_true rfl (Or.inl ⟨hm, beq_eq_false_iff_ne.mp htag, hmv⟩)
      · rw [if_neg hraise]
        have hPd : ¬ (mergeable data d hp = .ok false ∧ d.tag ≠ Tag.aggregated ∧
            mv = false) := by
          rintro ⟨h1, h2, h3⟩
          rw [hm] at h1
          injection h1 with h1
          exact hraise (by simp [h1, beq_eq_false_iff_ne.mpr h2, h3])
        constructor
        · intro hLHS
          cases hscan : collision_scan data hp mv ds with
          | error e =>
              rw [hscan] at hLHS
              injection hLHS with hLHS
              right
              rw [← ih, hscan, hLHS]
          | ok rest => rw [hscan] at hLHS; cases hLHS
        · rintro (hx | hex)
          · exact absurd hx hPd
          · rw [ih.mpr hex]

/-- split_datapoint's tail loop never faults with the overlap conflict. -/
theorem split_loop_after_err (hp : HParams) (agg : DP) (l : List DP) (e : PyErr)
    (h : split_loop_after hp agg l = .error e) : e ≠ .overlapConflict := by
  induction l generalizing agg with
  | nil => cases h
  | cons r rest ih =>
      unfold split_loop_after at h
      simp only [bind, Except.bind] at h
      cases hm : merge agg r hp with
      | error e' =>
          simp only [hm] at h
          cases h
          rcases merge_err_kinds agg r hp e hm with h1 | h1 | h1 <;> simp [h1]
      | ok agg' =>
          simp only [hm] at h
          exact ih agg' h

/-- split_datapoint's flag loop never faults with the overlap conflict. -/
theorem split_loop_err (hp : HParams) (pivot : ℚ) (agg : DP) (l : List DP) (e : PyErr)
    (h : split_loop hp pivot agg l = .error e) : e ≠ .overlapConflict := by
  rw [split_loop_eq] at h
  cases hd : l.dropWhile (fun r => !(decide (pivot < r.t1))) with
  | nil =>
      rw [hd] at h
      cases ha : split_loop_after hp agg l with
      | error e' =>
          rw [ha] at h
          cases h
          exact split_loop_after_err hp agg l _ ha
      | ok fin => rw [ha] at h; cases h
  | cons tmp2 tail2 =>
      rw [hd] at h
      simp only [Except.bind] at h
      cases ha : split_loop_after hp agg (l.takeWhile (fun r => !(decide (pivot < r.t1)))) with
      | error e' =>
          simp only [ha] at h
          cases h
          exact split_loop_after_err hp agg _ _ ha
      | ok t1agg =>
          simp only [ha] at h
          cases hb : split_loop_after hp tmp2 tail2 with
          | error e' =>
              simp only [hb, Except.map] at h
              cases h
              exact split_loop_after_err hp tmp2 tail2 _ hb
          | ok fin => simp only [hb, Except.map] at h; cases h

/-- split_datapoint never faults with the overlap conflict. -/
theorem split_datapoint_err (db : Db) (hp : HParams) (data : DP) (pivot : ℚ) (e : PyErr)
    (h : (split_datapoint db hp data pivot).err = some e) : e ≠ .overlapConflict := by
  unfold split_datapoint at h
  cases hq : get_datapoints_range db data.eid data.t1 data.t2 true (some 0) (some false) with
  | nil =>
      simp only [hq] at h
      cases h
      simp
  | cons r0 rest =>
      simp only [hq] at h
      by_cases h0 : (!(decide (r0.t1 < pivot))) = true
      · rw [if_pos h0] at h
        cases h
        simp
      · rw [if_neg h0] at h
        cases hsl : split_loop hp pivot { r0 with t1 := data.t1 } rest with
        | error e' =>
            simp only [hsl] at h
            cases h
            exact split_loop_err hp pivot _ rest _ hsl
        | ok p =>
            obtain ⟨aggF, opt⟩ := p
            cases opt with
            | none =>
                simp only [hsl] at h
                cases h
                simp
            | some pr =>
                obtain ⟨tmp1, tmp2⟩ := pr
                simp only [hsl] at h
                cases h

/-- The merge-with-overlapping loop never raises the overlap conflict. -/
theorem overlap_loop_err (hp : HParams) (mv : Bool) (t1 : ℚ) :
    ∀ (l : List (DP × Bool)) (st : IngestSt) (e : PyErr),
      (overlap_loop hp mv t1 st l).2 = some e → e ≠ .overlapConflict := by
  intro l
  induction l with
  | nil => intro st e h; cases h
  | cons p rest ih =>
      intro st e h
      obtain ⟨d, im⟩ := p
      unfold overlap_loop at h
      by_cases hred : (d.tag == Tag.redundant) = true
      · rw [if_pos hred] at h
        exact ih _ _ h
      · rw [if_neg hred] at h
        by_cases him : im = true
        · rw [if_pos him] at h
          cases hm : merge st.agg d hp with
          | error e' =>
              simp only [hm] at h
              cases h
              rcases merge_err_kinds st.agg d hp e hm with h1 | h1 | h1 <;> simp [h1]
          | ok agg' =>
              simp only [hm] at h
              by_cases htag : (d.tag == Tag.aggregated) = true
              · rw [if_pos htag] at h
                exact ih _ _ h
              · rw [if_neg htag] at h
                exact ih _ _ h
        · rw [if_neg him] at h
          by_cases hmv : mv = true
          · rw [if_pos hmv] at h
            exact ih _ _ h
          · rw [if_neg hmv] at h
            cases hsp : (split_datapoint st.db hp d t1).err with
            | some e' =>
                simp only [hsp] at h
                cases h
                exact split_datapoint_err _ _ _ _ _ hsp
            | none =>
                simp only [hsp] at h
                exact ih _ _ h

/-- The merge-with-adjacent loop never raises the overlap conflict. -/
theorem adjacent_loop_err (hp : HParams) (mv : Bool) (pre post : List DP) (t1 t2 : ℚ) :
    ∀ (l : List DP) (st : IngestSt) (e : PyErr),
      (adjacent_loop hp mv pre post t1 t2 st l).2 = some e → e ≠ .overlapConflict := by
  intro l
  induction l with
  | nil => intro st e h; cases h
  | cons d rest ih =>
      intro st e h
      unfold adjacent_loop at h
      by_cases hskip : ((pre.contains d && decide (t1 ≤ d.t2)) ||
          (post.contains d && decide (d.t1 ≤ t2))) = true
      · rw [if_pos hskip] at h
        exact ih _ _ h
      · rw [if_neg hskip] at h
        cases hmb : mergeable st.agg d hp with
        | error e' =>
            simp only [hmb] at h
            cases h
            simp [mergeable_err_kinds st.agg d hp e hmb]
        | ok m =>
            simp only [hmb] at h
            by_cases hm : m = true
            · rw [if_pos hm] at h
              cases hmg : merge st.agg d hp with
              | error e' =>
                  simp only [hmg] at h
                  cases h
                  rcases merge_err_kinds st.agg d hp e hmg with h1 | h1 | h1 <;> simp [h1]
              | ok agg' =>
                  simp only [hmg] at h
                  by_cases htag : (d.tag == Tag.aggregated) = true
                  · rw [if_pos htag] at h
                    exact ih _ _ h
                  · rw [if_neg htag] at h
                    exact ih _ _ h
            · rw [if_neg hm] at h
              by_cases hmv : mv = true
              · rw [if_pos hmv] at h
                exact ih _ _ h
              · rw [if_neg hmv] at h
                cases h

/-- Membership in the direct-overlap query: stored rows of the entity whose
interval meets the open incoming interval, any tag. -/
theorem mem_overlap_query (db : Db) (eid : Nat) (t1 t2 : ℚ) (d : DP) :
    d ∈ get_datapoints_range db eid t1 t2 false none none ↔
      d ∈ db ∧ d.eid = eid ∧ d.t1 < t2 ∧ t1 < d.t2 := by
  simp [get_datapoints_range, List.mem_filter, range_overlaps, tag_ok, and_assoc]

/-- mergeable reads only v, c and src: retagging its first argument does not
change it. -/
theorem mergeable_retag (a b : DP) (hp : HParams) (t : Tag) :
    mergeable { a with tag := t } b hp = mergeable a b hp := rfl

/-- process_datapoint (non-timeseries) fails with the overlap conflict
exactly when its collision scan does: the later loops never raise it. -/
theorem process_err_iff_scan (db : Db) (hp : HParams) (mv : Bool) (data0 : DP) :
    ((process_datapoint db hp false mv data0).err = some .overlapConflict ↔
      collision_scan { data0 with tag := Tag.plain } hp mv
        (get_datapoints_range db data0.eid data0.t1 data0.t2 false none none) =
        .error .overlapConflict) := by
  simp only [process_datapoint]
  rw [if_neg (by simp)]
  cases hscan : collision_scan { data0 with tag := Tag.plain } hp mv
      (get_datapoints_range db data0.eid data0.t1 data0.t2 false none none) with
  | error e =>
      simp only [hscan]
      constructor
      · intro h
        injection h with h
        rw [h]
      · intro h
        injection h with h
        rw [h]
  | ok ml =>
      simp only [hscan]
      constructor
      · intro h
        exfalso
        split at h
        · rename_i st e hov
          injection h with h
          subst h
          exact overlap_loop_err hp mv data0.t1 _ _ _ (by rw [hov]) rfl
        · split at h
          · rename_i st e hadj
            injection h with h
            subst h
            exact adjacent_loop_err hp mv _ _ data0.t1 data0.t2 _ _ _ (by rw [hadj]) rfl
          · split at h
            · rename_i st e hadj
              injection h with h
              subst h
              exact adjacent_loop_err hp mv _ _ data0.t1 data0.t2 _ _ _ (by rw [hadj]) rfl
            · cases h
      · intro h
        cases h

/-- Claim C1 (amended): for a non-timeseries attribute whose three selectors
are among merge_check's keys, process_datapoint fails with the overlap
conflict exactly when some stored datapoint of the entity overlapping the
open incoming interval is non-mergeable with the incoming datapoint, is not
tagged AGGREGATED, and the attribute is not multi-value.  In the other
configurations no overlap conflict is raised, but the ingest need not
proceed: the counterexample shows a SplitUnderflow instead. -/
theorem C1_overlap_conflict_iff (db : Db) (hp : HParams) (mv : Bool) (data0 : DP)
    (hv : hp.aggregation_function_value ∈ (["keep", "add", "avg", "csv_union"] : List String))
    (hc : hp.aggregation_function_confidence ∈
      (["keep", "add", "avg", "csv_union"] : List String))
    (hs : hp.aggregation_function_source ∈
      (["keep", "add", "avg", "csv_union"] : List String)) :
    ((process_datapoint db hp false mv data0).err = some .overlapConflict ↔
      ∃ d ∈ db, d.eid = data0.eid ∧ d.t1 < data0.t2 ∧ data0.t1 < d.t2 ∧
        mergeable data0 d hp = .ok false ∧ d.tag ≠ Tag.aggregated ∧ mv = false) := by
  rw [process_err_iff_scan]
  rw [collision_scan_overlap_iff _ _ _ _
    (fun d => mergeable_total hp hv hc hs { data0 with tag := Tag.plain } d)]
  constructor
  · rintro ⟨d, hdq, hm, ht, hmv⟩
    obtain ⟨hdb, heid, h1, h2⟩ := (mem_overlap_query db data0.eid data0.t1 data0.t2 d).mp hdq
    rw [mergeable_retag] at hm
    exact ⟨d, hdb, heid, h1, h2, hm, ht, hmv⟩
  · rintro ⟨d, hdb, heid, h1, h2, hm, ht, hmv⟩
    refine ⟨d, (mem_overlap_query db data0.eid data0.t1 data0.t2 d).mpr
      ⟨hdb, heid, h1, h2⟩, ?_, ht, hmv⟩
    rw [mergeable_retag]
    exact hm

/-- Witness for the amended C1 at a store holding one overlapping
non-mergeable PLAIN datapoint. -/
theorem C1_witness :
    ((process_datapoint db_plain hp_keep false false data_in).err =
        some .overlapConflict ↔
      ∃ d ∈ db_plain, d.eid = data_in.eid ∧ d.t1 < data_in.t2 ∧ data_in.t1 < d.t2 ∧
        mergeable data_in d hp_keep = .ok false ∧ d.tag ≠ Tag.aggregated ∧
        false = false) :=
  C1_overlap_conflict_iff db_plain hp_keep false data_in (by decide) (by decide) (by decide)

/-- Claim C1's final clause as stated is false: with an overlapping
non-mergeable AGGREGATED datapoint (which has no REDUNDANT constituents) no
overlap conflict arises, yet the ingest does not proceed — split_datapoint
faults with SplitUnderflow. -/
theorem C1_counterexample :
    (process_datapoint db_agg hp_keep false false data_in).err = some .splitUnderflow ∧
      (∀ d ∈ db_agg,
        ¬(mergeable data_in d hp_keep = .ok false ∧ d.tag ≠ Tag.aggregated)) := by
  decide

/-- Claim C10: a process_datapoint run that fails with the overlap conflict
has issued no mutation and left the store unchanged — the conflict is raised
during the read-only collision scan. -/
theorem C10_overlap_no_mutation (db : Db) (hp : HParams) (is_ts mv : Bool) (data0 : DP)
    (h : (process_datapoint db hp is_ts mv data0).err = some .overlapConflict) :
    (process_datapoint db hp is_ts mv data0).muts = [] ∧
      (process_datapoint db hp is_ts mv data0).db = db := by
  cases is_ts with
  | true =>
      rw [show process_datapoint db hp true mv data0 =
          { muts := [Mut.create { data0 with tag := Tag.plain }],
            db := apply_mut db (Mut.create { data0 with tag := Tag.plain }),
            err := none } from by simp [process_datapoint]] at h
      cases h
  | false =>
      have hscan := (process_err_iff_scan db hp mv data0).mp h
      have hres : process_datapoint db hp false mv data0 =
          { muts := [], db := db, err := some .overlapConflict } := by
        simp only [process_datapoint]
        rw [if_neg (by simp)]
        simp only [hscan]
      rw [hres]
      exact ⟨rfl, rfl⟩

/-- Witness for C10 at a store producing the overlap conflict. -/
theorem C10_witness :
    (process_datapoint db_plain hp_keep false false data_in).muts = [] ∧
      (process_datapoint db_plain hp_keep false false data_in).db = db_plain :=
  C10_overlap_no_mutation db_plain hp_keep false false data_in (by decide)

end Dp3
